import Mathlib

/-!
Shallow embedding of the NearFusion NEAR contracts:
  - shared crate : `Timelocks`, `CryptoUtils` (SHA-256 hashlock utilities)
  - escrow crate : unified `Escrow` state machine (Source / Destination)
  - escrow-dst crate : split `EscrowDst` destination contract
  - factory and escrow-factory crates : `EscrowFactory` registries

Machine words (the 32-bit words of SHA-256, u64 timestamps, u128 balances)
are modelled as `Nat`, with an explicit `% 2^32` wherever the Rust code
performs wrapping 32-bit arithmetic inside the hash function.
-/

deriving instance DecidableEq for Except

/-- Modulus of 32-bit words used throughout SHA-256. -/
def M32 : Nat := 4294967296

/-- Right rotation of a 32-bit word by `n` places. -/
def rotr32 (n x : Nat) : Nat := ((x >>> n) ||| (x <<< (32 - n))) % M32

/-- Logical right shift of a 32-bit word. -/
def shr32 (n x : Nat) : Nat := x >>> n

/-- Bitwise complement within 32 bits. -/
def not32 (x : Nat) : Nat := x ^^^ 0xFFFFFFFF

/-- SHA-256 big sigma 0. -/
def sigBig0 (x : Nat) : Nat := rotr32 2 x ^^^ rotr32 13 x ^^^ rotr32 22 x

/-- SHA-256 big sigma 1. -/
def sigBig1 (x : Nat) : Nat := rotr32 6 x ^^^ rotr32 11 x ^^^ rotr32 25 x

/-- SHA-256 small sigma 0. -/
def sigSmall0 (x : Nat) : Nat := rotr32 7 x ^^^ rotr32 18 x ^^^ shr32 3 x

/-- SHA-256 small sigma 1. -/
def sigSmall1 (x : Nat) : Nat := rotr32 17 x ^^^ rotr32 19 x ^^^ shr32 10 x

/-- SHA-256 choice function. -/
def ch32 (x y z : Nat) : Nat := (x &&& y) ^^^ (not32 x &&& z)

/-- SHA-256 majority function. -/
def maj32 (x y z : Nat) : Nat := (x &&& y) ^^^ (x &&& z) ^^^ (y &&& z)

/-- The 64 SHA-256 round constants (fractional parts of the cube roots of the first 64
primes), written in decimal. -/
def K256 : List Nat :=
  [1116352408, 1899447441, 3049323471, 3921009573,
   961987163, 1508970993, 2453635748, 2870763221,
   3624381080, 310598401, 607225278, 1426881987,
   1925078388, 2162078206, 2614888103, 3248222580,
   3835390401, 4022224774, 264347078, 604807628,
   770255983, 1249150122, 1555081692, 1996064986,
   2554220882, 2821834349, 2952996808, 3210313671,
   3336571891, 3584528711, 113926993, 338241895,
   666307205, 773529912, 1294757372, 1396182291,
   1695183700, 1986661051, 2177026350, 2456956037,
   2730485921, 2820302411, 3259730800, 3345764771,
   3516065817, 3600352804, 4094571909, 275423344,
   430227734, 506948616, 659060556, 883997877,
   958139571, 1322822218, 1537002063, 1747873779,
   1955562222, 2024104815, 2227730452, 2361852424,
   2428436474, 2756734187, 3204031479, 3329325298]

/-- Working state of the SHA-256 compression function: eight 32-bit words. -/
structure Sha256St where
  a : Nat
  b : Nat
  c : Nat
  d : Nat
  e : Nat
  f : Nat
  g : Nat
  h : Nat
deriving DecidableEq

/-- Initial SHA-256 hash value H(0). -/
def sha256H0 : Sha256St :=
  ⟨1779033703, 3144134277, 1013904242, 2773480762, 1359893119, 2600822924, 528734635, 1541459225⟩

/-- One round of the SHA-256 compression function; `kw` is the pair (round constant, schedule word). -/
def sha256Round (s : Sha256St) (kw : Nat × Nat) : Sha256St :=
  let t1 := (s.h + sigBig1 s.e + ch32 s.e s.f s.g + kw.1 + kw.2) % M32
  let t2 := (sigBig0 s.a + maj32 s.a s.b s.c) % M32
  ⟨(t1 + t2) % M32, s.a, s.b, s.c, (s.d + t1) % M32, s.e, s.f, s.g⟩

/-- Assemble a big-endian 32-bit word from the first four bytes of a list. -/
def toWord4 : List Nat → Nat
  | b0 :: b1 :: b2 :: b3 :: _ => (b0 <<< 24) ||| (b1 <<< 16) ||| (b2 <<< 8) ||| b3
  | _ => 0

/-- Cut a 64-byte block into 16 big-endian words (fuel-indexed so it reduces in the kernel). -/
def blockWordsAux : Nat → List Nat → List Nat
  | 0, _ => []
  | n + 1, l => toWord4 l :: blockWordsAux n (l.drop 4)

/-- The 16 message words of a 64-byte block. -/
def blockWords (block : List Nat) : List Nat := blockWordsAux 16 block

/-- Append the next message-schedule word. -/
def schedStep (w : List Nat) : List Nat :=
  let n := w.length
  w ++ [(sigSmall1 (w.getD (n - 2) 0) + w.getD (n - 7) 0 + sigSmall0 (w.getD (n - 15) 0) +
         w.getD (n - 16) 0) % M32]

/-- Iterate `schedStep`. -/
def schedExtend : Nat → List Nat → List Nat
  | 0, w => w
  | n + 1, w => schedExtend n (schedStep w)

/-- Full 64-word message schedule of a block. -/
def sha256Sched (block : List Nat) : List Nat := schedExtend 48 (blockWords block)

/-- SHA-256 compression of a single 64-byte block into the running hash state. -/
def sha256Compress (st : Sha256St) (block : List Nat) : Sha256St :=
  let s := (K256.zip (sha256Sched block)).foldl sha256Round st
  ⟨(st.a + s.a) % M32, (st.b + s.b) % M32, (st.c + s.c) % M32, (st.d + s.d) % M32,
   (st.e + s.e) % M32, (st.f + s.f) % M32, (st.g + s.g) % M32, (st.h + s.h) % M32⟩

/-- Big-endian 8-byte encoding of a 64-bit length field. -/
def beBytes8 (n : Nat) : List Nat :=
  [(n >>> 56) % 256, (n >>> 48) % 256, (n >>> 40) % 256, (n >>> 32) % 256,
   (n >>> 24) % 256, (n >>> 16) % 256, (n >>> 8) % 256, n % 256]

/-- SHA-256 padding: a 0x80 byte, zeros to 56 mod 64, then the bit length. -/
def sha256Pad (msg : List Nat) : List Nat :=
  msg ++ (128 :: List.replicate ((119 - msg.length % 64) % 64) 0) ++ beBytes8 (8 * msg.length)

/-- Split a byte list into 64-byte chunks (fuel-indexed so it reduces in the kernel). -/
def chunks64 : Nat → List Nat → List (List Nat)
  | 0, _ => []
  | _ + 1, [] => []
  | n + 1, l => l.take 64 :: chunks64 n (l.drop 64)

/-- Big-endian byte decomposition of a 32-bit word. -/
def wordBytes (w : Nat) : List Nat := [(w >>> 24) % 256, (w >>> 16) % 256, (w >>> 8) % 256, w % 256]

/-- SHA-256 digest (32 bytes) of a byte message. -/
def sha256Bytes (msg : List Nat) : List Nat :=
  let padded := sha256Pad msg
  let hf := (chunks64 padded.length padded).foldl sha256Compress sha256H0
  wordBytes hf.a ++ wordBytes hf.b ++ wordBytes hf.c ++ wordBytes hf.d ++
  wordBytes hf.e ++ wordBytes hf.f ++ wordBytes hf.g ++ wordBytes hf.h

/-- UTF-8 byte encoding of a character, as produced by `str::as_bytes` in Rust. -/
def charBytes (c : Char) : List Nat :=
  let n := c.toNat
  if n < 0x80 then [n]
  else if n < 0x800 then [0xC0 ||| (n >>> 6), 0x80 ||| (n &&& 0x3F)]
  else if n < 0x10000 then
    [0xE0 ||| (n >>> 12), 0x80 ||| ((n >>> 6) &&& 0x3F), 0x80 ||| (n &&& 0x3F)]
  else
    [0xF0 ||| (n >>> 18), 0x80 ||| ((n >>> 12) &&& 0x3F), 0x80 ||| ((n >>> 6) &&& 0x3F),
     0x80 ||| (n &&& 0x3F)]

/-- UTF-8 bytes of a string, matching Rust's `secret.as_bytes()`. -/
def strBytes (s : String) : List Nat := s.data.flatMap charBytes

/-- Lowercase hexadecimal digit for a value below 16, as in the Rust `hex` crate. -/
def hexChar (n : Nat) : Char :=
  if n = 0 then '0' else if n = 1 then '1' else if n = 2 then '2' else if n = 3 then '3'
  else if n = 4 then '4' else if n = 5 then '5' else if n = 6 then '6' else if n = 7 then '7'
  else if n = 8 then '8' else if n = 9 then '9' else if n = 10 then 'a' else if n = 11 then 'b'
  else if n = 12 then 'c' else if n = 13 then 'd' else if n = 14 then 'e' else 'f'

/-- Lowercase hex encoding of a byte list, matching `hex::encode`. -/
def hexEncode (bytes : List Nat) : String :=
  String.mk (bytes.flatMap (fun b => [hexChar (b / 16), hexChar (b % 16)]))

namespace CryptoUtils

/-- Embedding of `CryptoUtils::create_hashlock` from the shared crate:
hex encoding of the SHA-256 digest of the secret's UTF-8 bytes. -/
def create_hashlock (secret : String) : String := hexEncode (sha256Bytes (strBytes secret))

/-- Embedding of `CryptoUtils::verify_secret`: recompute the hashlock and compare the
full digest strings for equality. -/
def verify_secret (secret hashlock : String) : Bool := create_hashlock secret == hashlock

end CryptoUtils

/-- Sanity check of the SHA-256 embedding against the standard test vector for "abc". -/
theorem sha256_test_vector_abc :
    CryptoUtils.create_hashlock "abc" =
      "ba7816bf8f01cfea414140de5dae2223b00361a396177a9cb410ff61f20015ad" := by decide

/-- Account identifiers of the NEAR ledger, modelled as strings. -/
abbrev AccountId := String

/-- Embedding of `shared::Timelocks`: a creation timestamp in nanoseconds and
three durations in seconds. -/
structure Timelocks where
  deployed_at : Nat
  withdrawal_period : Nat
  cancellation_period : Nat
  rescue_delay : Nat
deriving DecidableEq

/-- Embedding of `Timelocks::can_withdraw`; `now` stands for `env::block_timestamp()`.
The Rust code converts the seconds duration to nanoseconds by multiplying with 10^9. -/
def Timelocks.can_withdraw (tl : Timelocks) (now : Nat) : Bool :=
  now ≤ tl.deployed_at + tl.withdrawal_period * 1000000000

/-- Embedding of `Timelocks::can_cancel`. -/
def Timelocks.can_cancel (tl : Timelocks) (now : Nat) : Bool :=
  tl.deployed_at + tl.cancellation_period * 1000000000 ≤ now

/-- Embedding of `Timelocks::can_rescue`. -/
def Timelocks.can_rescue (tl : Timelocks) (now : Nat) : Bool :=
  tl.deployed_at + tl.rescue_delay * 1000000000 ≤ now

/-- Embedding of `shared::EscrowType`. -/
inductive EscrowType
  | Source
  | Destination
deriving DecidableEq

/-- Embedding of `shared::EscrowImmutables`. -/
structure EscrowImmutables where
  order_hash : String
  hashlock : String
  maker : AccountId
  taker : AccountId
  token : Option AccountId
  amount : Nat
  safety_deposit : Nat
  timelocks : Timelocks
deriving DecidableEq

/-- Embedding of the `EscrowState` enum (identical in the escrow and escrow-dst crates). -/
inductive EscrowState
  | Active
  | Withdrawn
  | Cancelled
  | Rescued
deriving DecidableEq

/-- Whether a state is terminal (everything except `Active`). -/
def EscrowState.isTerminal : EscrowState → Bool
  | .Active => false
  | _ => true

/-- An asset transfer issued by a contract: the `Promise` created by
`transfer_funds` (native transfer when `token` is `none`, `ft_transfer` otherwise). -/
structure Transfer where
  recipient : AccountId
  token : Option AccountId
  amount : Nat
deriving DecidableEq

/-- Failure reasons of the escrow operations. Each constructor corresponds to one
`assert!` panic message in the Rust code: NotActive = "Escrow is not active",
WindowExpired = "Withdrawal period has expired", WindowNotReached = "Cancellation/Rescue
period not reached", BadSecret = "Invalid secret", Unauthorized = the caller checks. -/
inductive EscrowErr
  | NotActive
  | WindowExpired
  | WindowNotReached
  | BadSecret
  | Unauthorized
deriving DecidableEq

/-- Embedding of the unified `Escrow` contract state (escrow crate). -/
structure Escrow where
  escrow_type : EscrowType
  immutables : EscrowImmutables
  state : EscrowState
  factory : AccountId
  secret : Option String
deriving DecidableEq

/-- Embedding of `Escrow::new`; `factory` stands for `env::predecessor_account_id()`. -/
def Escrow.new (escrow_type : EscrowType) (immutables : EscrowImmutables)
    (factory : AccountId) : Escrow :=
  ⟨escrow_type, immutables, .Active, factory, none⟩

/-- Embedding of `Escrow::transfer_funds`. -/
def Escrow.transfer_funds (e : Escrow) (recipient : AccountId) : Transfer :=
  ⟨recipient, e.immutables.token, e.immutables.amount⟩

/-- Embedding of `Escrow::withdraw`; `caller` stands for `env::predecessor_account_id()`
and `now` for `env::block_timestamp()`. The checks appear in the source order:
state, timelock, secret, then the role-dependent caller check. -/
def Escrow.withdraw (e : Escrow) (caller : AccountId) (now : Nat) (secret : String) :
    Except EscrowErr (Escrow × Transfer) :=
  if ¬ e.state = .Active then .error .NotActive
  else if ¬ e.immutables.timelocks.can_withdraw now = true then .error .WindowExpired
  else if ¬ CryptoUtils.verify_secret secret e.immutables.hashlock = true then .error .BadSecret
  else
    match e.escrow_type with
    | .Source =>
        let e2 : Escrow := { e with state := .Withdrawn, secret := some secret }
        .ok (e2, e2.transfer_funds e.immutables.maker)
    | .Destination =>
        if ¬ caller = e.immutables.taker then .error .Unauthorized
        else
          let e2 : Escrow := { e with state := .Withdrawn, secret := some secret }
          .ok (e2, e2.transfer_funds e.immutables.taker)

/-- Embedding of `Escrow::cancel`: requires Active state, the cancellation timelock,
and the role's cancel authority (Source→taker, Destination→maker); refunds the
role's refund beneficiary (Source→taker, Destination→maker). -/
def Escrow.cancel (e : Escrow) (caller : AccountId) (now : Nat) :
    Except EscrowErr (Escrow × Transfer) :=
  if ¬ e.state = .Active then .error .NotActive
  else if ¬ e.immutables.timelocks.can_cancel now = true then .error .WindowNotReached
  else
    match e.escrow_type with
    | .Source =>
        if ¬ caller = e.immutables.taker then .error .Unauthorized
        else
          let e2 : Escrow := { e with state := .Cancelled }
          .ok (e2, e2.transfer_funds e.immutables.taker)
    | .Destination =>
        if ¬ caller = e.immutables.maker then .error .Unauthorized
        else
          let e2 : Escrow := { e with state := .Cancelled }
          .ok (e2, e2.transfer_funds e.immutables.maker)

/-- Embedding of `Escrow::rescue_funds`: requires Active state, the rescue timelock,
and the same authority as cancel; transfers to the caller-chosen recipient. -/
def Escrow.rescue_funds (e : Escrow) (caller : AccountId) (now : Nat)
    (recipient : AccountId) : Except EscrowErr (Escrow × Transfer) :=
  if ¬ e.state = .Active then .error .NotActive
  else if ¬ e.immutables.timelocks.can_rescue now = true then .error .WindowNotReached
  else
    match e.escrow_type with
    | .Source =>
        if ¬ caller = e.immutables.taker then .error .Unauthorized
        else
          let e2 : Escrow := { e with state := .Rescued }
          .ok (e2, e2.transfer_funds recipient)
    | .Destination =>
        if ¬ caller = e.immutables.maker then .error .Unauthorized
        else
          let e2 : Escrow := { e with state := .Rescued }
          .ok (e2, e2.transfer_funds recipient)

/-- Embedding of the split `EscrowDst` contract state (escrow-dst crate). -/
structure EscrowDst where
  immutables : EscrowImmutables
  state : EscrowState
  factory : AccountId
  secret_used : Option String
deriving DecidableEq

/-- Embedding of `EscrowDst::new`. -/
def EscrowDst.new (immutables : EscrowImmutables) (factory : AccountId) : EscrowDst :=
  ⟨immutables, .Active, factory, none⟩

/-- Embedding of `EscrowDst::transfer_funds`. -/
def EscrowDst.transfer_funds (e : EscrowDst) (recipient : AccountId) : Transfer :=
  ⟨recipient, e.immutables.token, e.immutables.amount⟩

/-- Embedding of `EscrowDst::withdraw`: state, timelock, secret, then caller == taker;
transfers to the taker. -/
def EscrowDst.withdraw (e : EscrowDst) (caller : AccountId) (now : Nat) (secret : String) :
    Except EscrowErr (EscrowDst × Transfer) :=
  if ¬ e.state = .Active then .error .NotActive
  else if ¬ e.immutables.timelocks.can_withdraw now = true then .error .WindowExpired
  else if ¬ CryptoUtils.verify_secret secret e.immutables.hashlock = true then .error .BadSecret
  else if ¬ caller = e.immutables.taker then .error .Unauthorized
  else
    let e2 : EscrowDst := { e with state := .Withdrawn, secret_used := some secret }
    .ok (e2, e2.transfer_funds e.immutables.taker)

/-- Embedding of `EscrowDst::cancel`: state, timelock, caller == maker; refunds the maker. -/
def EscrowDst.cancel (e : EscrowDst) (caller : AccountId) (now : Nat) :
    Except EscrowErr (EscrowDst × Transfer) :=
  if ¬ e.state = .Active then .error .NotActive
  else if ¬ e.immutables.timelocks.can_cancel now = true then .error .WindowNotReached
  else if ¬ caller = e.immutables.maker then .error .Unauthorized
  else
    let e2 : EscrowDst := { e with state := .Cancelled }
    .ok (e2, e2.transfer_funds e.immutables.maker)

/-- Embedding of `EscrowDst::rescue_funds`: state, timelock, caller == maker;
transfers to the caller-chosen recipient. -/
def EscrowDst.rescue_funds (e : EscrowDst) (caller : AccountId) (now : Nat)
    (recipient : AccountId) : Except EscrowErr (EscrowDst × Transfer) :=
  if ¬ e.state = .Active then .error .NotActive
  else if ¬ e.immutables.timelocks.can_rescue now = true then .error .WindowNotReached
  else if ¬ caller = e.immutables.maker then .error .Unauthorized
  else
    let e2 : EscrowDst := { e with state := .Rescued }
    .ok (e2, e2.transfer_funds recipient)

/-- Lookup in an association-list model of NEAR's `LookupMap` / `UnorderedMap`. -/
def mapGet {α : Type} : List (String × α) → String → Option α
  | [], _ => none
  | (k', v) :: m, k => if k' = k then some v else mapGet m k

/-- Remove a key, modelling `remove` on NEAR maps. -/
def mapRemove {α : Type} : List (String × α) → String → List (String × α)
  | [], _ => []
  | (k', v) :: m, k => if k' = k then mapRemove m k else (k', v) :: mapRemove m k

/-- Insert (overwriting any previous binding), modelling `insert` on NEAR maps. -/
def mapInsert {α : Type} (m : List (String × α)) (k : String) (v : α) : List (String × α) :=
  (k, v) :: mapRemove m k

/-- Take the characters covering exactly the first `n` UTF-8 bytes of a character
list. Returns `none` when the string holds fewer than `n` bytes or when byte
position `n` falls inside a character, exactly the two cases where the Rust
slice `&s[..n]` panics. -/
def takeBytes : List Char → Nat → Option (List Char)
  | _, 0 => some []
  | [], _ + 1 => none
  | c :: cs, n + 1 =>
      if (charBytes c).length ≤ n + 1 then
        (takeBytes cs (n + 1 - (charBytes c).length)).map (fun l => c :: l)
      else none

/-- Prefix tag of `generate_escrow_account_id`: "src" for Source, "dst" for Destination. -/
def typePrefix : EscrowType → String
  | .Source => "src-"
  | .Destination => "dst-"

/-- Embedding of `EscrowFactory::generate_escrow_account_id` (identical in both factory
crates): `format!("{}-{}.{}", type_prefix, &order_hash[..8], env::current_account_id())`.
`none` models the slice panic on an order hash shorter than 8 bytes or with a
non-boundary byte index 8. The `parse().unwrap()` validation of NEAR account-id
syntax is not modelled. -/
def generate_escrow_account_id (current_account : AccountId) (order_hash : String)
    (escrow_type : EscrowType) : Option AccountId :=
  (takeBytes order_hash.data 8).map
    (fun pre => typePrefix escrow_type ++ String.mk pre ++ "." ++ current_account)

/-- Embedding of `EscrowInfo` (identical in both factory crates). -/
structure EscrowInfo where
  escrow_type : EscrowType
  immutables : EscrowImmutables
  creator : AccountId
  created_at : Nat
deriving DecidableEq

/-- Outcome of the provisioning promise chain as seen by the creation callback
(`env::promise_result(0)`). -/
inductive PromiseOutcome
  | Successful
  | Failed
deriving DecidableEq

/-- Data captured by the `.then(on_escrow_created(...))` continuation of a create call. -/
structure PendingCreation where
  escrow_account_id : AccountId
  order_hash : String
  fee : Nat
deriving DecidableEq

/-- Failure reasons of factory creation, one per `expect!`/`assert!` in the source:
TemplateNotSet (factory crate only), InsufficientDeposit, DuplicateOrder
("Escrow already exists for order"), SlicePanic (the `&order_hash[..8]` slice),
CodeNotSet (escrow-factory crate only). -/
inductive CreateErr
  | TemplateNotSet
  | InsufficientDeposit
  | DuplicateOrder
  | SlicePanic
  | CodeNotSet
deriving DecidableEq

namespace FactoryU

/-- Minimum storage deposit of the factory crate: 3 NEAR in yoctoNEAR. -/
def MIN_STORAGE_DEPOSIT : Nat := 3000000000000000000000000

/-- Embedding of `EscrowFactory` from the factory crate (template-based variant). -/
structure EscrowFactory where
  owner : AccountId
  order_to_escrow : List (String × AccountId)
  escrow_info : List (String × EscrowInfo)
  creation_fee : Nat
  treasury : Option AccountId
  escrow_template : Option AccountId
deriving DecidableEq

/-- Embedding of `EscrowFactory::new` from the factory crate. -/
def EscrowFactory.new (owner : AccountId) (creation_fee : Nat) (treasury : Option AccountId)
    (escrow_template : Option AccountId) : EscrowFactory :=
  ⟨owner, [], [], creation_fee, treasury, escrow_template⟩

/-- Embedding of `EscrowFactory::calculate_required_deposit` from the factory crate:
fee + minimum storage + principal (native asset only) + safety deposit. -/
def EscrowFactory.calculate_required_deposit (f : EscrowFactory)
    (immutables : EscrowImmutables) : Nat :=
  f.creation_fee + MIN_STORAGE_DEPOSIT +
    (if immutables.token.isNone then immutables.amount else 0) + immutables.safety_deposit

/-- Embedding of the synchronous part of `EscrowFactory::create_escrow` from the factory
crate, in source order: template `expect`, deposit check, duplicate check, account-id
derivation (slice), then the two registry inserts. The returned `PendingCreation`
carries the arguments of the scheduled `on_escrow_created` callback. `caller` stands
for `env::predecessor_account_id()`, `now` for `env::block_timestamp()`,
`current_account` for `env::current_account_id()`, `attached` for
`env::attached_deposit()`. -/
def EscrowFactory.create_escrow (f : EscrowFactory) (caller : AccountId) (now : Nat)
    (current_account : AccountId) (attached : Nat) (immutables : EscrowImmutables)
    (escrow_type : EscrowType) : Except CreateErr (EscrowFactory × PendingCreation) :=
  match f.escrow_template with
  | none => .error .TemplateNotSet
  | some _ =>
    if ¬ f.calculate_required_deposit immutables ≤ attached then .error .InsufficientDeposit
    else if (mapGet f.order_to_escrow immutables.order_hash).isSome then .error .DuplicateOrder
    else
      match generate_escrow_account_id current_account immutables.order_hash escrow_type with
      | none => .error .SlicePanic
      | some eid =>
          let info : EscrowInfo := ⟨escrow_type, immutables, caller, now⟩
          .ok ({ f with
                  order_to_escrow := mapInsert f.order_to_escrow immutables.order_hash eid,
                  escrow_info := mapInsert f.escrow_info eid info },
               ⟨eid, immutables.order_hash, f.creation_fee⟩)

/-- Embedding of `EscrowFactory::create_src_escrow` from the factory crate. -/
def EscrowFactory.create_src_escrow (f : EscrowFactory) (caller : AccountId) (now : Nat)
    (current_account : AccountId) (attached : Nat) (immutables : EscrowImmutables) :
    Except CreateErr (EscrowFactory × PendingCreation) :=
  f.create_escrow caller now current_account attached immutables .Source

/-- Embedding of `EscrowFactory::create_dst_escrow` from the factory crate. -/
def EscrowFactory.create_dst_escrow (f : EscrowFactory) (caller : AccountId) (now : Nat)
    (current_account : AccountId) (attached : Nat) (immutables : EscrowImmutables) :
    Except CreateErr (EscrowFactory × PendingCreation) :=
  f.create_escrow caller now current_account attached immutables .Destination

/-- Embedding of `EscrowFactory::on_escrow_created` from the factory crate: on success,
keep the registry and sweep the fee to the treasury when configured and positive; on
failure, remove both registry entries. Returns the new factory state, the boolean
result, and the fee transfer when one is issued. -/
def EscrowFactory.on_escrow_created (f : EscrowFactory) (escrow_account_id : AccountId)
    (order_hash : String) (fee : Nat) (outcome : PromiseOutcome) :
    EscrowFactory × Bool × Option Transfer :=
  match outcome with
  | .Successful =>
      (f, true,
        match f.treasury with
        | some tr => if 0 < fee then some ⟨tr, none, fee⟩ else none
        | none => none)
  | .Failed =>
      ({ f with
          order_to_escrow := mapRemove f.order_to_escrow order_hash,
          escrow_info := mapRemove f.escrow_info escrow_account_id },
       false, none)

/-- Embedding of `EscrowFactory::get_escrow_for_order` from the factory crate. -/
def EscrowFactory.get_escrow_for_order (f : EscrowFactory) (order_hash : String) :
    Option AccountId :=
  mapGet f.order_to_escrow order_hash

/-- Embedding of `EscrowFactory::get_escrow_info` from the factory crate. -/
def EscrowFactory.get_escrow_info (f : EscrowFactory) (escrow_account_id : AccountId) :
    Option EscrowInfo :=
  mapGet f.escrow_info escrow_account_id

end FactoryU

namespace FactoryS

/-- Minimum storage deposit of the escrow-factory crate: 1 NEAR in yoctoNEAR. -/
def MIN_STORAGE_DEPOSIT : Nat := 1000000000000000000000000

/-- Embedding of `EscrowFactory` from the escrow-factory crate (per-role WASM variant). -/
structure EscrowFactory where
  owner : AccountId
  order_to_escrow : List (String × AccountId)
  escrow_info : List (String × EscrowInfo)
  creation_fee : Nat
  treasury : Option AccountId
  escrow_src_code : List Nat
  escrow_dst_code : List Nat
deriving DecidableEq

/-- Embedding of `EscrowFactory::new` from the escrow-factory crate. -/
def EscrowFactory.new (owner : AccountId) (creation_fee : Nat) (treasury : Option AccountId) :
    EscrowFactory :=
  ⟨owner, [], [], creation_fee, treasury, [], []⟩

/-- Embedding of `EscrowFactory::calculate_required_deposit` from the escrow-factory crate. -/
def EscrowFactory.calculate_required_deposit (f : EscrowFactory)
    (immutables : EscrowImmutables) : Nat :=
  f.creation_fee + MIN_STORAGE_DEPOSIT +
    (if immutables.token.isNone then immutables.amount else 0) + immutables.safety_deposit

/-- Selection of the per-role WASM code in the escrow-factory crate's `create_escrow`
(`let code = match escrow_type { Source => .., Destination => .. }`). -/
def EscrowFactory.code_for (f : EscrowFactory) : EscrowType → List Nat
  | .Source => f.escrow_src_code
  | .Destination => f.escrow_dst_code

/-- Embedding of the synchronous part of `EscrowFactory::create_escrow` from the
escrow-factory crate, in source order: deposit check, duplicate check, account-id
derivation (slice), code-empty check, then the two registry inserts. -/
def EscrowFactory.create_escrow (f : EscrowFactory) (caller : AccountId) (now : Nat)
    (current_account : AccountId) (attached : Nat) (immutables : EscrowImmutables)
    (escrow_type : EscrowType) : Except CreateErr (EscrowFactory × PendingCreation) :=
  if ¬ f.calculate_required_deposit immutables ≤ attached then .error .InsufficientDeposit
  else if (mapGet f.order_to_escrow immutables.order_hash).isSome then .error .DuplicateOrder
  else
    match generate_escrow_account_id current_account immutables.order_hash escrow_type with
    | none => .error .SlicePanic
    | some eid =>
        if (f.code_for escrow_type).isEmpty then .error .CodeNotSet
        else
          let info : EscrowInfo := ⟨escrow_type, immutables, caller, now⟩
          .ok ({ f with
                  order_to_escrow := mapInsert f.order_to_escrow immutables.order_hash eid,
                  escrow_info := mapInsert f.escrow_info eid info },
               ⟨eid, immutables.order_hash, f.creation_fee⟩)

/-- Embedding of `EscrowFactory::create_src_escrow` from the escrow-factory crate. -/
def EscrowFactory.create_src_escrow (f : EscrowFactory) (caller : AccountId) (now : Nat)
    (current_account : AccountId) (attached : Nat) (immutables : EscrowImmutables) :
    Except CreateErr (EscrowFactory × PendingCreation) :=
  f.create_escrow caller now current_account attached immutables .Source

/-- Embedding of `EscrowFactory::create_dst_escrow` from the escrow-factory crate. -/
def EscrowFactory.create_dst_escrow (f : EscrowFactory) (caller : AccountId) (now : Nat)
    (current_account : AccountId) (attached : Nat) (immutables : EscrowImmutables) :
    Except CreateErr (EscrowFactory × PendingCreation) :=
  f.create_escrow caller now current_account attached immutables .Destination

/-- Embedding of `EscrowFactory::on_escrow_created` from the escrow-factory crate
(identical logic to the factory crate's callback). -/
def EscrowFactory.on_escrow_created (f : EscrowFactory) (escrow_account_id : AccountId)
    (order_hash : String) (fee : Nat) (outcome : PromiseOutcome) :
    EscrowFactory × Bool × Option Transfer :=
  match outcome with
  | .Successful =>
      (f, true,
        match f.treasury with
        | some tr => if 0 < fee then some ⟨tr, none, fee⟩ else none
        | none => none)
  | .Failed =>
      ({ f with
          order_to_escrow := mapRemove f.order_to_escrow order_hash,
          escrow_info := mapRemove f.escrow_info escrow_account_id },
       false, none)

/-- Embedding of `EscrowFactory::get_escrow_for_order` from the escrow-factory crate. -/
def EscrowFactory.get_escrow_for_order (f : EscrowFactory) (order_hash : String) :
    Option AccountId :=
  mapGet f.order_to_escrow order_hash

/-- Embedding of `EscrowFactory::get_escrow_info` from the escrow-factory crate. -/
def EscrowFactory.get_escrow_info (f : EscrowFactory) (escrow_account_id : AccountId) :
    Option EscrowInfo :=
  mapGet f.escrow_info escrow_account_id

end FactoryS

/-- Lookup after removal: the removed key reads as empty, every other key is untouched. -/
theorem mapGet_mapRemove {α : Type} (m : List (String × α)) (k k' : String) :
    mapGet (mapRemove m k) k' = if k' = k then none else mapGet m k' := by
  induction m with
  | nil => simp [mapGet, mapRemove]
  | cons p m ih =>
      obtain ⟨a, v⟩ := p
      by_cases hak : a = k
      · subst hak
        by_cases hk : k' = a
        · subst hk; simp [mapGet, mapRemove, ih]
        · have hak' : ¬ a = k' := fun h => hk h.symm
          simp [mapGet, mapRemove, ih, hk, hak']
      · by_cases hk : k' = k
        · subst hk
          have hak' : ¬ a = k' := hak
          simp [mapGet, mapRemove, ih, hak']
        · simp [mapGet, mapRemove, ih, hak, hk]

/-- Lookup after insertion: the inserted key reads back its value, every other key is
untouched. -/
theorem mapGet_mapInsert {α : Type} (m : List (String × α)) (k k' : String) (v : α) :
    mapGet (mapInsert m k v) k' = if k' = k then some v else mapGet m k' := by
  by_cases hk : k' = k
  · subst hk; simp [mapInsert, mapGet]
  · have hk' : ¬ k = k' := fun h => hk h.symm
    simp [mapInsert, mapGet, hk, hk', mapGet_mapRemove]

/-- Any operation on a non-Active unified escrow fails with NotActive. -/
theorem Escrow.ops_notActive (e : Escrow) (caller : AccountId) (now : Nat) (secret : String)
    (recipient : AccountId) (h : ¬ e.state = .Active) :
    e.withdraw caller now secret = .error .NotActive ∧
    e.cancel caller now = .error .NotActive ∧
    e.rescue_funds caller now recipient = .error .NotActive := by
  refine ⟨?_, ?_, ?_⟩ <;> simp [Escrow.withdraw, Escrow.cancel, Escrow.rescue_funds, h]

/-- Any operation on a non-Active split destination escrow fails with NotActive. -/
theorem EscrowDst.ops_notActive_dst (e : EscrowDst) (caller : AccountId) (now : Nat)
    (secret : String) (recipient : AccountId) (h : ¬ e.state = .Active) :
    e.withdraw caller now secret = .error .NotActive ∧
    e.cancel caller now = .error .NotActive ∧
    e.rescue_funds caller now recipient = .error .NotActive := by
  refine ⟨?_, ?_, ?_⟩ <;>
    simp [EscrowDst.withdraw, EscrowDst.cancel, EscrowDst.rescue_funds, h]

/-- Characterization of a successful `Escrow::withdraw`. -/
theorem Escrow.withdraw_ok_iff (e : Escrow) (caller : AccountId) (now : Nat) (secret : String)
    (e' : Escrow) (tr : Transfer) :
    e.withdraw caller now secret = .ok (e', tr) ↔
      e.state = .Active ∧ e.immutables.timelocks.can_withdraw now = true ∧
      CryptoUtils.verify_secret secret e.immutables.hashlock = true ∧
      e' = { e with state := .Withdrawn, secret := some secret } ∧
      ((e.escrow_type = .Source ∧
          tr = ⟨e.immutables.maker, e.immutables.token, e.immutables.amount⟩) ∨
       (e.escrow_type = .Destination ∧ caller = e.immutables.taker ∧
          tr = ⟨e.immutables.taker, e.immutables.token, e.immutables.amount⟩)) := by
  cases hty : e.escrow_type <;>
    simp [Escrow.withdraw, Escrow.transfer_funds, hty] <;>
    split_ifs <;> simp_all <;> tauto

/-- Characterization of a successful `Escrow::cancel`. -/
theorem Escrow.cancel_ok_iff (e : Escrow) (caller : AccountId) (now : Nat)
    (e' : Escrow) (tr : Transfer) :
    e.cancel caller now = .ok (e', tr) ↔
      e.state = .Active ∧ e.immutables.timelocks.can_cancel now = true ∧
      e' = { e with state := .Cancelled } ∧
      ((e.escrow_type = .Source ∧ caller = e.immutables.taker ∧
          tr = ⟨e.immutables.taker, e.immutables.token, e.immutables.amount⟩) ∨
       (e.escrow_type = .Destination ∧ caller = e.immutables.maker ∧
          tr = ⟨e.immutables.maker, e.immutables.token, e.immutables.amount⟩)) := by
  cases hty : e.escrow_type <;>
    simp [Escrow.cancel, Escrow.transfer_funds, hty] <;>
    split_ifs <;> simp_all <;> tauto

/-- Characterization of a successful `Escrow::rescue_funds`. -/
theorem Escrow.rescue_ok_iff (e : Escrow) (caller : AccountId) (now : Nat)
    (recipient : AccountId) (e' : Escrow) (tr : Transfer) :
    e.rescue_funds caller now recipient = .ok (e', tr) ↔
      e.state = .Active ∧ e.immutables.timelocks.can_rescue now = true ∧
      e' = { e with state := .Rescued } ∧
      tr = ⟨recipient, e.immutables.token, e.immutables.amount⟩ ∧
      ((e.escrow_type = .Source ∧ caller = e.immutables.taker) ∨
       (e.escrow_type = .Destination ∧ caller = e.immutables.maker)) := by
  cases hty : e.escrow_type <;>
    simp [Escrow.rescue_funds, Escrow.transfer_funds, hty] <;>
    split_ifs <;> simp_all <;> tauto

/-- Characterization of a successful `EscrowDst::withdraw`. -/
theorem EscrowDst.withdraw_ok_iff_dst (e : EscrowDst) (caller : AccountId) (now : Nat)
    (secret : String) (e' : EscrowDst) (tr : Transfer) :
    e.withdraw caller now secret = .ok (e', tr) ↔
      e.state = .Active ∧ e.immutables.timelocks.can_withdraw now = true ∧
      CryptoUtils.verify_secret secret e.immutables.hashlock = true ∧
      caller = e.immutables.taker ∧
      e' = { e with state := .Withdrawn, secret_used := some secret } ∧
      tr = ⟨e.immutables.taker, e.immutables.token, e.immutables.amount⟩ := by
  simp [EscrowDst.withdraw, EscrowDst.transfer_funds]
  split_ifs <;> simp_all <;> tauto

/-- Characterization of a successful `EscrowDst::cancel`. -/
theorem EscrowDst.cancel_ok_iff_dst (e : EscrowDst) (caller : AccountId) (now : Nat)
    (e' : EscrowDst) (tr : Transfer) :
    e.cancel caller now = .ok (e', tr) ↔
      e.state = .Active ∧ e.immutables.timelocks.can_cancel now = true ∧
      caller = e.immutables.maker ∧
      e' = { e with state := .Cancelled } ∧
      tr = ⟨e.immutables.maker, e.immutables.token, e.immutables.amount⟩ := by
  simp [EscrowDst.cancel, EscrowDst.transfer_funds]
  split_ifs <;> simp_all <;> tauto

/-- Characterization of a successful `EscrowDst::rescue_funds`. -/
theorem EscrowDst.rescue_ok_iff_dst (e : EscrowDst) (caller : AccountId) (now : Nat)
    (recipient : AccountId) (e' : EscrowDst) (tr : Transfer) :
    e.rescue_funds caller now recipient = .ok (e', tr) ↔
      e.state = .Active ∧ e.immutables.timelocks.can_rescue now = true ∧
      caller = e.immutables.maker ∧
      e' = { e with state := .Rescued } ∧
      tr = ⟨recipient, e.immutables.token, e.immutables.amount⟩ := by
  simp [EscrowDst.rescue_funds, EscrowDst.transfer_funds]
  split_ifs <;> simp_all <;> tauto

/-- Sample timelock configuration used by concrete witnesses (1h, 2h, 24h, as in the
repository's tests). -/
def demoTimelocks : Timelocks := ⟨0, 3600, 7200, 86400⟩

/-- Sample immutable parameters used by concrete witnesses. -/
def demoImmutables : EscrowImmutables :=
  ⟨"order_123", CryptoUtils.create_hashlock "abc", "maker.near", "taker.near", none,
   1000000, 100000, demoTimelocks⟩

/-- C1: for every escrow instance (unified `Escrow` and split `EscrowDst`), a success of
withdraw, cancel or rescue_funds is only possible from the Active state and moves the
instance into its terminal state (Withdrawn, Cancelled or Rescued respectively), after
which every further call to any of the three operations fails with NotActive; together
these clauses say that at most one of the three operations can ever succeed and a
terminal state is never left or re-entered. -/
theorem escrow_terminal_states_final (e : Escrow) (d : EscrowDst) (caller : AccountId)
    (now : Nat) (secret : String) (recipient : AccountId) :
    (¬ e.state = .Active →
      e.withdraw caller now secret = .error .NotActive ∧
      e.cancel caller now = .error .NotActive ∧
      e.rescue_funds caller now recipient = .error .NotActive) ∧
    (∀ e' tr, e.withdraw caller now secret = .ok (e', tr) →
      e.state = .Active ∧ e'.state = .Withdrawn ∧ e'.state.isTerminal = true ∧
      ∀ c2 n2 s2 r2,
        e'.withdraw c2 n2 s2 = .error .NotActive ∧
        e'.cancel c2 n2 = .error .NotActive ∧
        e'.rescue_funds c2 n2 r2 = .error .NotActive) ∧
    (∀ e' tr, e.cancel caller now = .ok (e', tr) →
      e.state = .Active ∧ e'.state = .Cancelled ∧ e'.state.isTerminal = true ∧
      ∀ c2 n2 s2 r2,
        e'.withdraw c2 n2 s2 = .error .NotActive ∧
        e'.cancel c2 n2 = .error .NotActive ∧
        e'.rescue_funds c2 n2 r2 = .error .NotActive) ∧
    (∀ e' tr, e.rescue_funds caller now recipient = .ok (e', tr) →
      e.state = .Active ∧ e'.state = .Rescued ∧ e'.state.isTerminal = true ∧
      ∀ c2 n2 s2 r2,
        e'.withdraw c2 n2 s2 = .error .NotActive ∧
        e'.cancel c2 n2 = .error .NotActive ∧
        e'.rescue_funds c2 n2 r2 = .error .NotActive) ∧
    (¬ d.state = .Active →
      d.withdraw caller now secret = .error .NotActive ∧
      d.cancel caller now = .error .NotActive ∧
      d.rescue_funds caller now recipient = .error .NotActive) ∧
    (∀ d' tr, d.withdraw caller now secret = .ok (d', tr) →
      d.state = .Active ∧ d'.state = .Withdrawn ∧ d'.state.isTerminal = true ∧
      ∀ c2 n2 s2 r2,
        d'.withdraw c2 n2 s2 = .error .NotActive ∧
        d'.cancel c2 n2 = .error .NotActive ∧
        d'.rescue_funds c2 n2 r2 = .error .NotActive) ∧
    (∀ d' tr, d.cancel caller now = .ok (d', tr) →
      d.state = .Active ∧ d'.state = .Cancelled ∧ d'.state.isTerminal = true ∧
      ∀ c2 n2 s2 r2,
        d'.withdraw c2 n2 s2 = .error .NotActive ∧
        d'.cancel c2 n2 = .error .NotActive ∧
        d'.rescue_funds c2 n2 r2 = .error .NotActive) ∧
    (∀ d' tr, d.rescue_funds caller now recipient = .ok (d', tr) →
      d.state = .Active ∧ d'.state = .Rescued ∧ d'.state.isTerminal = true ∧
      ∀ c2 n2 s2 r2,
        d'.withdraw c2 n2 s2 = .error .NotActive ∧
        d'.cancel c2 n2 = .error .NotActive ∧
        d'.rescue_funds c2 n2 r2 = .error .NotActive) := by
  refine ⟨fun h => Escrow.ops_notActive e caller now secret recipient h, ?_, ?_, ?_,
    fun h => EscrowDst.ops_notActive_dst d caller now secret recipient h, ?_, ?_, ?_⟩
  · intro e' tr h
    rw [Escrow.withdraw_ok_iff] at h
    obtain ⟨hA, -, -, he', -⟩ := h
    subst he'
    exact ⟨hA, rfl, rfl, fun c2 n2 s2 r2 =>
      Escrow.ops_notActive _ c2 n2 s2 r2 (by simp)⟩
  · intro e' tr h
    rw [Escrow.cancel_ok_iff] at h
    obtain ⟨hA, -, he', -⟩ := h
    subst he'
    exact ⟨hA, rfl, rfl, fun c2 n2 s2 r2 =>
      Escrow.ops_notActive _ c2 n2 s2 r2 (by simp)⟩
  · intro e' tr h
    rw [Escrow.rescue_ok_iff] at h
    obtain ⟨hA, -, he', -⟩ := h
    subst he'
    exact ⟨hA, rfl, rfl, fun c2 n2 s2 r2 =>
      Escrow.ops_notActive _ c2 n2 s2 r2 (by simp)⟩
  · intro d' tr h
    rw [EscrowDst.withdraw_ok_iff_dst] at h
    obtain ⟨hA, -, -, -, hd', -⟩ := h
    subst hd'
    exact ⟨hA, rfl, rfl, fun c2 n2 s2 r2 =>
      EscrowDst.ops_notActive_dst _ c2 n2 s2 r2 (by simp)⟩
  · intro d' tr h
    rw [EscrowDst.cancel_ok_iff_dst] at h
    obtain ⟨hA, -, -, hd', -⟩ := h
    subst hd'
    exact ⟨hA, rfl, rfl, fun c2 n2 s2 r2 =>
      EscrowDst.ops_notActive_dst _ c2 n2 s2 r2 (by simp)⟩
  · intro d' tr h
    rw [EscrowDst.rescue_ok_iff_dst] at h
    obtain ⟨hA, -, -, hd', -⟩ := h
    subst hd'
    exact ⟨hA, rfl, rfl, fun c2 n2 s2 r2 =>
      EscrowDst.ops_notActive_dst _ c2 n2 s2 r2 (by simp)⟩

/-- Witness for C1 at a concrete input: a withdrawn unified escrow and a cancelled split
escrow reject all three operations with NotActive. -/
theorem escrow_terminal_states_final_witness :
    (Escrow.mk .Source demoImmutables .Withdrawn "factory.near" (some "abc")).withdraw
        "anyone.near" 0 "abc" = .error .NotActive ∧
    (EscrowDst.mk demoImmutables .Cancelled "factory.near" none).cancel
        "maker.near" 0 = .error .NotActive :=
  ⟨((escrow_terminal_states_final
      (Escrow.mk .Source demoImmutables .Withdrawn "factory.near" (some "abc"))
      (EscrowDst.mk demoImmutables .Cancelled "factory.near" none)
      "anyone.near" 0 "abc" "r.near").1 (by simp)).1,
   (((escrow_terminal_states_final
      (Escrow.mk .Source demoImmutables .Withdrawn "factory.near" (some "abc"))
      (EscrowDst.mk demoImmutables .Cancelled "factory.near" none)
      "maker.near" 0 "abc" "r.near").2.2.2.2.1 (by simp)).2).1⟩

/-- C2: for an Active escrow within the withdrawal window and with a secret matching the
hashlock, withdraw on a Destination-role instance succeeds exactly when the caller is
the taker and then pays the taker, while on a Source-role instance it succeeds for
every caller and always pays the maker (the beneficiary does not depend on the caller);
the same Destination behaviour holds for the split `EscrowDst` contract. -/
theorem withdraw_role_asymmetry (e : Escrow) (d : EscrowDst) (caller : AccountId)
    (now : Nat) (secret : String)
    (hA : e.state = .Active)
    (hW : e.immutables.timelocks.can_withdraw now = true)
    (hS : CryptoUtils.verify_secret secret e.immutables.hashlock = true) :
    (e.escrow_type = .Destination →
      ((∃ e2 tr, e.withdraw caller now secret = .ok (e2, tr)) ↔
        caller = e.immutables.taker) ∧
      (∀ e2 tr, e.withdraw caller now secret = .ok (e2, tr) →
        tr.recipient = e.immutables.taker)) ∧
    (e.escrow_type = .Source →
      (∃ e2, e.withdraw caller now secret =
        .ok (e2, ⟨e.immutables.maker, e.immutables.token, e.immutables.amount⟩)) ∧
      (∀ e2 tr, e.withdraw caller now secret = .ok (e2, tr) →
        tr.recipient = e.immutables.maker)) ∧
    (d.state = .Active → d.immutables.timelocks.can_withdraw now = true →
      CryptoUtils.verify_secret secret d.immutables.hashlock = true →
      ((∃ d2 tr, d.withdraw caller now secret = .ok (d2, tr)) ↔
        caller = d.immutables.taker) ∧
      (∀ d2 tr, d.withdraw caller now secret = .ok (d2, tr) →
        tr.recipient = d.immutables.taker)) := by
  refine ⟨fun hty => ⟨⟨?_, ?_⟩, ?_⟩, fun hty => ⟨?_, ?_⟩, fun hdA hdW hdS => ⟨⟨?_, ?_⟩, ?_⟩⟩
  · rintro ⟨e2, tr, h⟩
    rw [Escrow.withdraw_ok_iff] at h
    rcases h.2.2.2.2 with ⟨hS', -⟩ | ⟨-, hc, -⟩
    · rw [hty] at hS'; cases hS'
    · exact hc
  · intro hc
    refine ⟨{ e with state := .Withdrawn, secret := some secret },
      ⟨e.immutables.taker, e.immutables.token, e.immutables.amount⟩, ?_⟩
    rw [Escrow.withdraw_ok_iff]
    exact ⟨hA, hW, hS, rfl, Or.inr ⟨hty, hc, rfl⟩⟩
  · intro e2 tr h
    rw [Escrow.withdraw_ok_iff] at h
    rcases h.2.2.2.2 with ⟨hS', -⟩ | ⟨-, -, htr⟩
    · rw [hty] at hS'; cases hS'
    · rw [htr]
  · refine ⟨{ e with state := .Withdrawn, secret := some secret }, ?_⟩
    rw [Escrow.withdraw_ok_iff]
    exact ⟨hA, hW, hS, rfl, Or.inl ⟨hty, rfl⟩⟩
  · intro e2 tr h
    rw [Escrow.withdraw_ok_iff] at h
    rcases h.2.2.2.2 with ⟨-, htr⟩ | ⟨hD, -, -⟩
    · rw [htr]
    · rw [hty] at hD; cases hD
  · rintro ⟨d2, tr, h⟩
    rw [EscrowDst.withdraw_ok_iff_dst] at h
    exact h.2.2.2.1
  · intro hc
    refine ⟨{ d with state := .Withdrawn, secret_used := some secret },
      ⟨d.immutables.taker, d.immutables.token, d.immutables.amount⟩, ?_⟩
    rw [EscrowDst.withdraw_ok_iff_dst]
    exact ⟨hdA, hdW, hdS, hc, rfl, rfl⟩
  · intro d2 tr h
    rw [EscrowDst.withdraw_ok_iff_dst] at h
    rw [h.2.2.2.2.2]

/-- Witness for C2 at a concrete input: on a concrete Active Destination escrow within
the window and with the matching secret "abc", the taker's withdrawal succeeds and pays
the taker. -/
theorem withdraw_role_asymmetry_witness :
    (∃ e2 tr,
      (Escrow.mk .Destination demoImmutables .Active "factory.near" none).withdraw
        "taker.near" 0 "abc" = .ok (e2, tr)) ∧
    (∃ e2,
      (Escrow.mk .Source demoImmutables .Active "factory.near" none).withdraw
        "anyone.near" 0 "abc" =
        .ok (e2, ⟨"maker.near", none, 1000000⟩)) :=
  ⟨((withdraw_role_asymmetry
      (Escrow.mk .Destination demoImmutables .Active "factory.near" none)
      (EscrowDst.mk demoImmutables .Active "factory.near" none)
      "taker.near" 0 "abc" rfl (by decide) (by decide)).1 rfl).1.mpr rfl,
   ((withdraw_role_asymmetry
      (Escrow.mk .Source demoImmutables .Active "factory.near" none)
      (EscrowDst.mk demoImmutables .Active "factory.near" none)
      "anyone.near" 0 "abc" rfl (by decide) (by decide)).2.1 rfl).1⟩

/-- C8: the revealed secret of a unified escrow instance starts out absent on `new`, is
written exactly by a successful withdraw (the transition into Withdrawn), is left
untouched by cancel and rescue (the transitions into Cancelled and Rescued), and once
the instance has left the Active state no operation succeeds any more, so the recorded
secret can never change again. -/
theorem secret_write_once (et : EscrowType) (imm : EscrowImmutables)
    (fac caller : AccountId) (now : Nat) (s : String) (recipient : AccountId)
    (e : Escrow) :
    ((Escrow.new et imm fac).secret = none ∧ (Escrow.new et imm fac).state = .Active) ∧
    (∀ e' tr, e.withdraw caller now s = .ok (e', tr) →
      e.state = .Active ∧ e'.state = .Withdrawn ∧ e'.secret = some s) ∧
    (∀ e' tr, e.cancel caller now = .ok (e', tr) →
      e'.state = .Cancelled ∧ e'.secret = e.secret) ∧
    (∀ e' tr, e.rescue_funds caller now recipient = .ok (e', tr) →
      e'.state = .Rescued ∧ e'.secret = e.secret) ∧
    (¬ e.state = .Active →
      e.withdraw caller now s = .error .NotActive ∧
      e.cancel caller now = .error .NotActive ∧
      e.rescue_funds caller now recipient = .error .NotActive) := by
  refine ⟨⟨rfl, rfl⟩, ?_, ?_, ?_,
    fun h => Escrow.ops_notActive e caller now s recipient h⟩
  · intro e' tr h
    rw [Escrow.withdraw_ok_iff] at h
    obtain ⟨hA, -, -, he', -⟩ := h
    subst he'
    exact ⟨hA, rfl, rfl⟩
  · intro e' tr h
    rw [Escrow.cancel_ok_iff] at h
    obtain ⟨-, -, he', -⟩ := h
    subst he'
    exact ⟨rfl, rfl⟩
  · intro e' tr h
    rw [Escrow.rescue_ok_iff] at h
    obtain ⟨-, -, he', -⟩ := h
    subst he'
    exact ⟨rfl, rfl⟩

/-- Witness for C8 at a concrete input: after the taker's concrete withdrawal the state
is Withdrawn and the secret "abc" is recorded; a cancel of a rescued instance fails. -/
theorem secret_write_once_witness :
    ((Escrow.mk .Destination demoImmutables .Active "factory.near" none).withdraw
        "taker.near" 0 "abc" =
      .ok (Escrow.mk .Destination demoImmutables .Withdrawn "factory.near" (some "abc"),
        ⟨"taker.near", none, 1000000⟩) →
      (Escrow.mk .Destination demoImmutables .Withdrawn "factory.near"
        (some "abc")).secret = some "abc") ∧
    (Escrow.mk .Destination demoImmutables .Rescued "factory.near" (some "abc")).cancel
      "maker.near" 99999999999999 = .error .NotActive :=
  ⟨fun h => ((secret_write_once .Destination demoImmutables "factory.near" "taker.near"
      0 "abc" "r.near"
      (Escrow.mk .Destination demoImmutables .Active "factory.near" none)).2.1 _ _ h).2.2,
   ((secret_write_once .Destination demoImmutables "factory.near" "maker.near"
      99999999999999 "abc" "r.near"
      (Escrow.mk .Destination demoImmutables .Rescued "factory.near"
        (some "abc"))).2.2.2.2 (by simp)).2.1⟩

/-- View of a unified escrow as a split destination escrow: same immutables, state and
factory; the unified `secret` field corresponds to the split `secret_used` field. -/
def Escrow.toDst (e : Escrow) : EscrowDst := ⟨e.immutables, e.state, e.factory, e.secret⟩

/-- C9: the split `EscrowDst` contract is behaviorally equivalent to the unified
`Escrow` contract instantiated with type Destination: `new` agrees, and for every
starting state, caller, ledger time and input the three operations return identical
results (same success or failure with the same error, same resulting state, same
recorded secret, and the same transfer) up to the `Escrow.toDst` field renaming. -/
theorem escrow_dst_refines_escrow (e : Escrow) (caller : AccountId) (now : Nat)
    (secret : String) (recipient : AccountId) (h : e.escrow_type = .Destination) :
    (Escrow.new .Destination e.immutables e.factory).toDst =
      EscrowDst.new e.immutables e.factory ∧
    e.toDst.withdraw caller now secret =
      (e.withdraw caller now secret).map (fun p => (p.1.toDst, p.2)) ∧
    e.toDst.cancel caller now =
      (e.cancel caller now).map (fun p => (p.1.toDst, p.2)) ∧
    e.toDst.rescue_funds caller now recipient =
      (e.rescue_funds caller now recipient).map (fun p => (p.1.toDst, p.2)) := by
  obtain ⟨ty, imm, st, fac, sec⟩ := e
  simp only at h
  subst h
  refine ⟨rfl, ?_, ?_, ?_⟩ <;>
    simp only [Escrow.withdraw, Escrow.cancel, Escrow.rescue_funds, EscrowDst.withdraw,
      EscrowDst.cancel, EscrowDst.rescue_funds, Escrow.toDst, Escrow.transfer_funds,
      EscrowDst.transfer_funds] <;>
    split_ifs <;> simp [Except.map]

/-- Witness for C9 at a concrete input: the equivalence instantiated at a concrete
Active Destination escrow, a concrete caller, time and secret. -/
theorem escrow_dst_refines_escrow_witness :
    (Escrow.mk .Destination demoImmutables .Active "factory.near" none).toDst.withdraw
        "taker.near" 0 "abc" =
      ((Escrow.mk .Destination demoImmutables .Active "factory.near" none).withdraw
        "taker.near" 0 "abc").map (fun p => (p.1.toDst, p.2)) :=
  (escrow_dst_refines_escrow
    (Escrow.mk .Destination demoImmutables .Active "factory.near" none)
    "taker.near" 0 "abc" "r.near" rfl).2.1

/-- C6: characterization of the three timelock predicates against ledger time `now`:
`can_withdraw` holds exactly while `now` is at most the creation time plus the
withdrawal window, `can_cancel` exactly from the creation time plus the cancellation
threshold on, and `can_rescue` exactly from the creation time plus the rescue delay on
(all durations counted from the creation timestamp; the code converts the
second-valued durations to nanoseconds by the factor 10^9). -/
theorem timelock_window_predicates (tl : Timelocks) (now : Nat) :
    (tl.can_withdraw now = true ↔ now ≤ tl.deployed_at + tl.withdrawal_period * 1000000000) ∧
    (tl.can_cancel now = true ↔ tl.deployed_at + tl.cancellation_period * 1000000000 ≤ now) ∧
    (tl.can_rescue now = true ↔ tl.deployed_at + tl.rescue_delay * 1000000000 ≤ now) := by
  refine ⟨?_, ?_, ?_⟩ <;>
    simp [Timelocks.can_withdraw, Timelocks.can_cancel, Timelocks.can_rescue]

/-- Positional value of a byte list in base 256 (little-endian). -/
def digitsVal : List Nat → Nat
  | [] => 0
  | d :: l => d + 256 * digitsVal l

/-- A bounded byte list has value below 256 to the power of its length. -/
theorem digitsVal_lt (l : List Nat) (h : ∀ x ∈ l, x < 256) :
    digitsVal l < 256 ^ l.length := by
  induction l with
  | nil => simp [digitsVal]
  | cons d l ih =>
      have hd : d < 256 := h d (List.mem_cons_self d l)
      have hl : digitsVal l < 256 ^ l.length := ih (fun x hx => h x (List.mem_cons_of_mem d hx))
      have : 256 ^ (d :: l).length = 256 * 256 ^ l.length := by
        simp [List.length_cons, pow_succ, Nat.mul_comm]
      rw [this]
      simp only [digitsVal]
      omega

/-- The base-256 value determines a bounded byte list of known length. -/
theorem digitsVal_inj (l1 l2 : List Nat) (hlen : l1.length = l2.length)
    (h1 : ∀ x ∈ l1, x < 256) (h2 : ∀ x ∈ l2, x < 256)
    (hv : digitsVal l1 = digitsVal l2) : l1 = l2 := by
  induction l1 generalizing l2 with
  | nil => cases l2 with
    | nil => rfl
    | cons d l => simp at hlen
  | cons d1 t1 ih =>
      cases l2 with
      | nil => simp at hlen
      | cons d2 t2 =>
          have hd1 : d1 < 256 := h1 d1 (List.mem_cons_self d1 t1)
          have hd2 : d2 < 256 := h2 d2 (List.mem_cons_self d2 t2)
          simp only [digitsVal] at hv
          have hd : d1 = d2 := by omega
          have ht : digitsVal t1 = digitsVal t2 := by omega
          have := ih t2 (by simpa using hlen)
            (fun x hx => h1 x (List.mem_cons_of_mem d1 hx))
            (fun x hx => h2 x (List.mem_cons_of_mem d2 hx)) ht
          rw [hd, this]

/-- A SHA-256 digest always consists of exactly 32 bytes. -/
theorem sha256Bytes_length (msg : List Nat) : (sha256Bytes msg).length = 32 := by
  simp [sha256Bytes, wordBytes]

/-- Every byte of a SHA-256 digest is below 256. -/
theorem sha256Bytes_lt (msg : List Nat) : ∀ x ∈ sha256Bytes msg, x < 256 := by
  intro x hx
  simp [sha256Bytes, wordBytes] at hx
  omega

/-- The hex-digit table is injective on the sixteen digit values. -/
theorem hexChar_inj_fin : ∀ a b : Fin 16, hexChar a.val = hexChar b.val → a = b := by
  decide

/-- The hex-digit table is injective on values below 16. -/
theorem hexChar_inj (a b : Nat) (ha : a < 16) (hb : b < 16) (h : hexChar a = hexChar b) :
    a = b := by
  have := hexChar_inj_fin ⟨a, ha⟩ ⟨b, hb⟩ h
  simpa using congrArg Fin.val this

/-- The two-hex-digit expansion is injective on byte lists whose entries are below 256. -/
theorem hexPairs_inj (l1 l2 : List Nat) (h1 : ∀ x ∈ l1, x < 256) (h2 : ∀ x ∈ l2, x < 256)
    (h : (l1.flatMap fun b => [hexChar (b / 16), hexChar (b % 16)]) =
         (l2.flatMap fun b => [hexChar (b / 16), hexChar (b % 16)])) : l1 = l2 := by
  induction l1 generalizing l2 with
  | nil => cases l2 with
    | nil => rfl
    | cons d l => simp at h
  | cons d1 t1 ih =>
      cases l2 with
      | nil => simp at h
      | cons d2 t2 =>
          simp only [List.flatMap_cons, List.cons_append, List.nil_append,
            List.cons.injEq] at h
          obtain ⟨hhi, hlo, ht⟩ := h
          have hd1 : d1 < 256 := h1 d1 (List.mem_cons_self d1 t1)
          have hd2 : d2 < 256 := h2 d2 (List.mem_cons_self d2 t2)
          have e1 : d1 / 16 = d2 / 16 :=
            hexChar_inj _ _ (by omega) (by omega) hhi
          have e2 : d1 % 16 = d2 % 16 :=
            hexChar_inj _ _ (by omega) (by omega) hlo
          have hd : d1 = d2 := by omega
          have := ih t2 (fun x hx => h1 x (List.mem_cons_of_mem d1 hx))
            (fun x hx => h2 x (List.mem_cons_of_mem d2 hx)) ht
          rw [hd, this]

/-- Hex encoding is injective on byte lists whose entries are below 256. -/
theorem hexEncode_inj (l1 l2 : List Nat) (h1 : ∀ x ∈ l1, x < 256) (h2 : ∀ x ∈ l2, x < 256)
    (h : hexEncode l1 = hexEncode l2) : l1 = l2 := by
  refine hexPairs_inj l1 l2 h1 h2 ?_
  have := congrArg String.data h
  simpa [hexEncode] using this

/-- Hashlocks agree exactly when the underlying SHA-256 digests agree. -/
theorem create_hashlock_eq_iff (s1 s2 : String) :
    CryptoUtils.create_hashlock s1 = CryptoUtils.create_hashlock s2 ↔
      sha256Bytes (strBytes s1) = sha256Bytes (strBytes s2) := by
  constructor
  · intro h
    exact hexEncode_inj _ _ (sha256Bytes_lt _) (sha256Bytes_lt _) h
  · intro h
    simp [CryptoUtils.create_hashlock, h]

/-- By pigeonhole over the finite space of 32-byte digests, two distinct secrets with
the same hashlock exist. -/
theorem create_hashlock_collision :
    ∃ s1 s2 : String, s1 ≠ s2 ∧
      CryptoUtils.create_hashlock s1 = CryptoUtils.create_hashlock s2 := by
  haveI : Infinite String := Infinite.of_injective
    (fun n : Nat => String.mk (List.replicate n 'a'))
    (by
      intro a b hab
      have := congrArg (fun s => s.data.length) hab
      simpa using this)
  have hbound : ∀ s : String, digitsVal (sha256Bytes (strBytes s)) < 256 ^ 32 := by
    intro s
    have := digitsVal_lt (sha256Bytes (strBytes s)) (sha256Bytes_lt _)
    rwa [sha256Bytes_length] at this
  obtain ⟨s1, s2, hne, hfeq⟩ := Finite.exists_ne_map_eq_of_infinite
    (fun s : String => (⟨digitsVal (sha256Bytes (strBytes s)), hbound s⟩ : Fin (256 ^ 32)))
  refine ⟨s1, s2, hne, ?_⟩
  have hv : digitsVal (sha256Bytes (strBytes s1)) = digitsVal (sha256Bytes (strBytes s2)) := by
    simpa using congrArg Fin.val hfeq
  have hdig : sha256Bytes (strBytes s1) = sha256Bytes (strBytes s2) :=
    digitsVal_inj _ _ (by rw [sha256Bytes_length, sha256Bytes_length])
      (sha256Bytes_lt _) (sha256Bytes_lt _) hv
  exact (create_hashlock_eq_iff s1 s2).mpr hdig

/-- Counterexample for C3: the claimed universal statement "for every s' different from
s, verify(s', make_hashlock(s)) returns false" is refuted: by pigeonhole over the
finite 256-bit digest space there exist two distinct secrets with equal SHA-256
hashlocks, and for such a pair verify returns true. -/
theorem verify_universal_distinctness_false :
    ¬ ∀ s sp : String, sp ≠ s →
      CryptoUtils.verify_secret sp (CryptoUtils.create_hashlock s) = false := by
  intro hclaim
  obtain ⟨s1, s2, hne, heq⟩ := create_hashlock_collision
  have := hclaim s1 s2 (Ne.symm hne)
  rw [CryptoUtils.verify_secret, heq] at this
  simp at this

/-- C3 (amended): verify(s, make_hashlock(s)) is true for every secret s, and
verify(s', make_hashlock(s)) is false exactly when the SHA-256 digest of s' differs
from that of s — so it is false for every s' that is not a SHA-256 collision of s,
but not for every s' ≠ s, since collisions exist in the finite digest space. -/
theorem verify_hashlock_equality_charact (s sp : String) :
    CryptoUtils.verify_secret s (CryptoUtils.create_hashlock s) = true ∧
    (CryptoUtils.verify_secret sp (CryptoUtils.create_hashlock s) = false ↔
      sha256Bytes (strBytes sp) ≠ sha256Bytes (strBytes s)) := by
  constructor
  · simp [CryptoUtils.verify_secret]
  · rw [CryptoUtils.verify_secret]
    rw [beq_eq_false_iff_ne]
    exact not_congr (create_hashlock_eq_iff sp s)

/-- Inversion of a successful synchronous `create_escrow` of the factory crate: all
checks passed, the derived account id is defined, and the new state carries exactly
the two speculative registry inserts. -/
theorem FactoryU.create_escrow_ok (f : FactoryU.EscrowFactory) (caller : AccountId)
    (now : Nat) (acct : AccountId) (att : Nat) (imm : EscrowImmutables) (ty : EscrowType)
    (f' : FactoryU.EscrowFactory) (p : PendingCreation)
    (h : f.create_escrow caller now acct att imm ty = .ok (f', p)) :
    f.escrow_template.isSome = true ∧
    f.calculate_required_deposit imm ≤ att ∧
    mapGet f.order_to_escrow imm.order_hash = none ∧
    generate_escrow_account_id acct imm.order_hash ty = some p.escrow_account_id ∧
    p.order_hash = imm.order_hash ∧ p.fee = f.creation_fee ∧
    f' = { f with
      order_to_escrow := mapInsert f.order_to_escrow imm.order_hash p.escrow_account_id,
      escrow_info := mapInsert f.escrow_info p.escrow_account_id ⟨ty, imm, caller, now⟩ } := by
  rw [FactoryU.EscrowFactory.create_escrow] at h
  split at h
  · cases h
  · split at h
    · cases h
    · split at h
      · cases h
      · split at h
        · cases h
        · simp only [Except.ok.injEq, Prod.mk.injEq] at h
          obtain ⟨hf', hp⟩ := h
          subst hp
          refine ⟨?_, by omega, ?_, ?_, rfl, rfl, hf'.symm⟩ <;>
            simp_all [Option.not_isSome_iff_eq_none]

/-- Inversion of a successful synchronous `create_escrow` of the escrow-factory crate. -/
theorem FactoryS.create_escrow_ok_split (f : FactoryS.EscrowFactory) (caller : AccountId)
    (now : Nat) (acct : AccountId) (att : Nat) (imm : EscrowImmutables) (ty : EscrowType)
    (f' : FactoryS.EscrowFactory) (p : PendingCreation)
    (h : f.create_escrow caller now acct att imm ty = .ok (f', p)) :
    f.calculate_required_deposit imm ≤ att ∧
    mapGet f.order_to_escrow imm.order_hash = none ∧
    generate_escrow_account_id acct imm.order_hash ty = some p.escrow_account_id ∧
    (f.code_for ty).isEmpty = false ∧
    p.order_hash = imm.order_hash ∧ p.fee = f.creation_fee ∧
    f' = { f with
      order_to_escrow := mapInsert f.order_to_escrow imm.order_hash p.escrow_account_id,
      escrow_info := mapInsert f.escrow_info p.escrow_account_id ⟨ty, imm, caller, now⟩ } := by
  rw [FactoryS.EscrowFactory.create_escrow.eq_def] at h
  split at h
  · cases h
  · split at h
    · cases h
    · split at h
      · cases h
      · split at h
        · cases h
        · simp only [Except.ok.injEq, Prod.mk.injEq] at h
          obtain ⟨hf', hp⟩ := h
          subst hp
          refine ⟨by omega, ?_, ?_, ?_, rfl, rfl, hf'.symm⟩ <;>
            simp_all [Option.not_isSome_iff_eq_none]

/-- C5: in both factory variants, once a `create_escrow` call for an order has
registered the order in the order-to-escrow registry, a second `create_escrow` with
the same order hash and an otherwise valid call (sufficient deposit), with either
role, fails with DuplicateOrder. -/
theorem duplicate_order_rejected (f : FactoryU.EscrowFactory) (g : FactoryS.EscrowFactory)
    (c1 c2 : AccountId) (t1 t2 : Nat) (acct1 acct2 : AccountId) (att1 att2 : Nat)
    (imm1 imm2 : EscrowImmutables) (r1 r2 : EscrowType)
    (f1 : FactoryU.EscrowFactory) (p1 : PendingCreation)
    (g1 : FactoryS.EscrowFactory) (q1 : PendingCreation) :
    (f.create_escrow c1 t1 acct1 att1 imm1 r1 = .ok (f1, p1) →
      imm2.order_hash = imm1.order_hash →
      f1.calculate_required_deposit imm2 ≤ att2 →
      f1.create_escrow c2 t2 acct2 att2 imm2 r2 = .error .DuplicateOrder) ∧
    (g.create_escrow c1 t1 acct1 att1 imm1 r1 = .ok (g1, q1) →
      imm2.order_hash = imm1.order_hash →
      g1.calculate_required_deposit imm2 ≤ att2 →
      g1.create_escrow c2 t2 acct2 att2 imm2 r2 = .error .DuplicateOrder) := by
  constructor
  · intro h1 horder hdep2
    obtain ⟨htpl, -, -, -, -, -, hf1⟩ := FactoryU.create_escrow_ok _ _ _ _ _ _ _ _ _ h1
    obtain ⟨tpl, htpl'⟩ := Option.isSome_iff_exists.mp htpl
    have hget : mapGet f1.order_to_escrow imm2.order_hash = some p1.escrow_account_id := by
      rw [hf1]
      simpa [horder] using mapGet_mapInsert f.order_to_escrow imm1.order_hash
        imm1.order_hash p1.escrow_account_id
    rw [FactoryU.EscrowFactory.create_escrow]
    have htpl1 : f1.escrow_template = some tpl := by rw [hf1]; exact htpl'
    rw [htpl1]
    rw [if_neg (by simpa using hdep2)]
    rw [if_pos (by simp [hget])]
  · intro h1 horder hdep2
    obtain ⟨-, -, -, -, -, -, hg1⟩ := FactoryS.create_escrow_ok_split _ _ _ _ _ _ _ _ _ h1
    have hget : mapGet g1.order_to_escrow imm2.order_hash = some q1.escrow_account_id := by
      rw [hg1]
      simpa [horder] using mapGet_mapInsert g.order_to_escrow imm1.order_hash
        imm1.order_hash q1.escrow_account_id
    rw [FactoryS.EscrowFactory.create_escrow.eq_def]
    rw [if_neg (by simpa using hdep2)]
    rw [if_pos (by simp [hget])]

/-- Sample immutables for factory runs: a NEP141-token escrow (no native principal in
the required deposit) with the given order hash. -/
def demoFImm (o : String) : EscrowImmutables :=
  ⟨o, "hashlock", "maker.near", "taker.near", some "tok.near", 5, 0, demoTimelocks⟩

/-- Fresh factory-crate factory with a configured template, no fee, no treasury. -/
def demoFac0 : FactoryU.EscrowFactory :=
  FactoryU.EscrowFactory.new "owner.near" 0 none (some "template.near")

/-- Factory-crate state after creating the order "aaaaaaaa1" (escrow id derived from the
first 8 bytes "aaaaaaaa"). -/
def demoFacA : FactoryU.EscrowFactory :=
  ⟨"owner.near", [("aaaaaaaa1", "src-aaaaaaaa.factory.near")],
   [("src-aaaaaaaa.factory.near", ⟨.Source, demoFImm "aaaaaaaa1", "alice.near", 1⟩)],
   0, none, some "template.near"⟩

/-- Factory-crate state after additionally creating the distinct order "aaaaaaaa2",
whose first 8 bytes coincide with those of "aaaaaaaa1": the same escrow id is derived
and the info entry is overwritten. -/
def demoFacB : FactoryU.EscrowFactory :=
  ⟨"owner.near",
   [("aaaaaaaa2", "src-aaaaaaaa.factory.near"), ("aaaaaaaa1", "src-aaaaaaaa.factory.near")],
   [("src-aaaaaaaa.factory.near", ⟨.Source, demoFImm "aaaaaaaa2", "bob.near", 2⟩)],
   0, none, some "template.near"⟩

/-- Fresh escrow-factory-crate factory with nonempty per-role code. -/
def demoSFac0 : FactoryS.EscrowFactory := ⟨"owner.near", [], [], 0, none, [7], [7]⟩

/-- Escrow-factory-crate state after creating the order "aaaaaaaa1". -/
def demoSFacA : FactoryS.EscrowFactory :=
  ⟨"owner.near", [("aaaaaaaa1", "src-aaaaaaaa.factory.near")],
   [("src-aaaaaaaa.factory.near", ⟨.Source, demoFImm "aaaaaaaa1", "alice.near", 1⟩)],
   0, none, [7], [7]⟩

/-- Witness for C5 at a concrete input: after the concrete creation of order
"aaaaaaaa1" in either factory variant, a second create for the same order with the
other role and sufficient deposit fails with DuplicateOrder. -/
theorem duplicate_order_rejected_witness :
    demoFacA.create_escrow "bob.near" 2 "factory.near" FactoryU.MIN_STORAGE_DEPOSIT
      (demoFImm "aaaaaaaa1") .Destination = .error .DuplicateOrder ∧
    demoSFacA.create_escrow "bob.near" 2 "factory.near" FactoryS.MIN_STORAGE_DEPOSIT
      (demoFImm "aaaaaaaa1") .Destination = .error .DuplicateOrder :=
  ⟨(duplicate_order_rejected demoFac0 demoSFac0 "alice.near" "bob.near" 1 2
      "factory.near" "factory.near" FactoryU.MIN_STORAGE_DEPOSIT FactoryU.MIN_STORAGE_DEPOSIT
      (demoFImm "aaaaaaaa1") (demoFImm "aaaaaaaa1") .Source .Destination
      demoFacA ⟨"src-aaaaaaaa.factory.near", "aaaaaaaa1", 0⟩
      demoSFacA ⟨"src-aaaaaaaa.factory.near", "aaaaaaaa1", 0⟩).1
      (by decide) rfl (by decide),
   (duplicate_order_rejected demoFac0 demoSFac0 "alice.near" "bob.near" 1 2
      "factory.near" "factory.near" FactoryS.MIN_STORAGE_DEPOSIT FactoryS.MIN_STORAGE_DEPOSIT
      (demoFImm "aaaaaaaa1") (demoFImm "aaaaaaaa1") .Source .Destination
      demoFacA ⟨"src-aaaaaaaa.factory.near", "aaaaaaaa1", 0⟩
      demoSFacA ⟨"src-aaaaaaaa.factory.near", "aaaaaaaa1", 0⟩).2
      (by decide) rfl (by decide)⟩

/-- C4 (amended): in both factory variants, when the completion callback runs with a
failure outcome for a creation attempt that registered order O under escrow id I, it
deletes both registry entries, so that afterwards get_escrow_for_order(O) and
get_escrow_info(I) both return empty and the callback reports false; this restores the
registry exactly to its pre-creation state provided the pre-creation registry carried
no info entry for I (which can fail when an earlier order shares I via the 8-byte
prefix derivation). -/
theorem rollback_clears_entries (f : FactoryU.EscrowFactory) (g : FactoryS.EscrowFactory)
    (c : AccountId) (t : Nat) (acct : AccountId) (att : Nat) (imm : EscrowImmutables)
    (ty : EscrowType) (f1 : FactoryU.EscrowFactory) (p : PendingCreation)
    (g1 : FactoryS.EscrowFactory) (q : PendingCreation) :
    (f.create_escrow c t acct att imm ty = .ok (f1, p) →
      (f1.on_escrow_created p.escrow_account_id p.order_hash p.fee
          .Failed).1.get_escrow_for_order imm.order_hash = none ∧
      (f1.on_escrow_created p.escrow_account_id p.order_hash p.fee
          .Failed).1.get_escrow_info p.escrow_account_id = none ∧
      (f1.on_escrow_created p.escrow_account_id p.order_hash p.fee .Failed).2.1 = false ∧
      (f.get_escrow_info p.escrow_account_id = none →
        (∀ o, (f1.on_escrow_created p.escrow_account_id p.order_hash p.fee
            .Failed).1.get_escrow_for_order o = f.get_escrow_for_order o) ∧
        (∀ i, (f1.on_escrow_created p.escrow_account_id p.order_hash p.fee
            .Failed).1.get_escrow_info i = f.get_escrow_info i))) ∧
    (g.create_escrow c t acct att imm ty = .ok (g1, q) →
      (g1.on_escrow_created q.escrow_account_id q.order_hash q.fee
          .Failed).1.get_escrow_for_order imm.order_hash = none ∧
      (g1.on_escrow_created q.escrow_account_id q.order_hash q.fee
          .Failed).1.get_escrow_info q.escrow_account_id = none ∧
      (g1.on_escrow_created q.escrow_account_id q.order_hash q.fee .Failed).2.1 = false ∧
      (g.get_escrow_info q.escrow_account_id = none →
        (∀ o, (g1.on_escrow_created q.escrow_account_id q.order_hash q.fee
            .Failed).1.get_escrow_for_order o = g.get_escrow_for_order o) ∧
        (∀ i, (g1.on_escrow_created q.escrow_account_id q.order_hash q.fee
            .Failed).1.get_escrow_info i = g.get_escrow_info i))) := by
  constructor
  · intro h
    obtain ⟨-, -, hdup, -, hpo, -, hf1⟩ := FactoryU.create_escrow_ok _ _ _ _ _ _ _ _ _ h
    subst hf1
    refine ⟨?_, ?_, rfl, ?_⟩
    · simp [FactoryU.EscrowFactory.on_escrow_created, FactoryU.EscrowFactory.get_escrow_for_order,
        mapGet_mapRemove, hpo]
    · simp [FactoryU.EscrowFactory.on_escrow_created, FactoryU.EscrowFactory.get_escrow_info,
        mapGet_mapRemove]
    · intro hpre
      constructor
      · intro o
        by_cases ho : o = imm.order_hash
        · subst ho
          simp [FactoryU.EscrowFactory.on_escrow_created,
            FactoryU.EscrowFactory.get_escrow_for_order, mapGet_mapRemove, hpo, hdup]
        · simp [FactoryU.EscrowFactory.on_escrow_created,
            FactoryU.EscrowFactory.get_escrow_for_order, mapGet_mapRemove, mapGet_mapInsert,
            hpo, ho]
      · intro i
        by_cases hi : i = p.escrow_account_id
        · subst hi
          simp only [FactoryU.EscrowFactory.get_escrow_info] at hpre
          simp [FactoryU.EscrowFactory.on_escrow_created,
            FactoryU.EscrowFactory.get_escrow_info, mapGet_mapRemove, hpre]
        · simp [FactoryU.EscrowFactory.on_escrow_created,
            FactoryU.EscrowFactory.get_escrow_info, mapGet_mapRemove, mapGet_mapInsert, hi]
  · intro h
    obtain ⟨-, hdup, -, -, hpo, -, hg1⟩ := FactoryS.create_escrow_ok_split _ _ _ _ _ _ _ _ _ h
    subst hg1
    refine ⟨?_, ?_, rfl, ?_⟩
    · simp [FactoryS.EscrowFactory.on_escrow_created, FactoryS.EscrowFactory.get_escrow_for_order,
        mapGet_mapRemove, hpo]
    · simp [FactoryS.EscrowFactory.on_escrow_created, FactoryS.EscrowFactory.get_escrow_info,
        mapGet_mapRemove]
    · intro hpre
      constructor
      · intro o
        by_cases ho : o = imm.order_hash
        · subst ho
          simp [FactoryS.EscrowFactory.on_escrow_created,
            FactoryS.EscrowFactory.get_escrow_for_order, mapGet_mapRemove, hpo, hdup]
        · simp [FactoryS.EscrowFactory.on_escrow_created,
            FactoryS.EscrowFactory.get_escrow_for_order, mapGet_mapRemove, mapGet_mapInsert,
            hpo, ho]
      · intro i
        by_cases hi : i = q.escrow_account_id
        · subst hi
          simp only [FactoryS.EscrowFactory.get_escrow_info] at hpre
          simp [FactoryS.EscrowFactory.on_escrow_created,
            FactoryS.EscrowFactory.get_escrow_info, mapGet_mapRemove, hpre]
        · simp [FactoryS.EscrowFactory.on_escrow_created,
            FactoryS.EscrowFactory.get_escrow_info, mapGet_mapRemove, mapGet_mapInsert, hi]

/-- Witness for C4 at a concrete input: the rollback of the concrete failed creation of
order "aaaaaaaa1" on the fresh factory leaves both getters empty. -/
theorem rollback_clears_entries_witness :
    (demoFacA.on_escrow_created "src-aaaaaaaa.factory.near" "aaaaaaaa1"
        0 .Failed).1.get_escrow_for_order "aaaaaaaa1" = none ∧
    (demoFacA.on_escrow_created "src-aaaaaaaa.factory.near" "aaaaaaaa1"
        0 .Failed).1.get_escrow_info "src-aaaaaaaa.factory.near" = none :=
  ⟨((rollback_clears_entries demoFac0 demoSFac0 "alice.near" 1 "factory.near"
      FactoryU.MIN_STORAGE_DEPOSIT (demoFImm "aaaaaaaa1") .Source
      demoFacA ⟨"src-aaaaaaaa.factory.near", "aaaaaaaa1", 0⟩
      demoSFacA ⟨"src-aaaaaaaa.factory.near", "aaaaaaaa1", 0⟩).1 (by decide)).1,
   ((rollback_clears_entries demoFac0 demoSFac0 "alice.near" 1 "factory.near"
      FactoryU.MIN_STORAGE_DEPOSIT (demoFImm "aaaaaaaa1") .Source
      demoFacA ⟨"src-aaaaaaaa.factory.near", "aaaaaaaa1", 0⟩
      demoSFacA ⟨"src-aaaaaaaa.factory.near", "aaaaaaaa1", 0⟩).1 (by decide)).2.1⟩

/-- Counterexample for C4: a concrete failed creation attempt after which the registry
is NOT identical to its pre-creation state. Starting from the fresh factory, order
"aaaaaaaa1" is created (state demoFacA, reachable, with a live info entry for the
derived id). The distinct order "aaaaaaaa2" shares its first 8 bytes, so its creation
attempt succeeds synchronously, derives the same escrow id and overwrites the info
entry; when the failure callback then rolls back, get_escrow_info of the id returns
none, while before this creation attempt it held the info of "aaaaaaaa1". -/
theorem rollback_divergence_on_prefix_collision :
    demoFac0.create_escrow "alice.near" 1 "factory.near" FactoryU.MIN_STORAGE_DEPOSIT
      (demoFImm "aaaaaaaa1") .Source =
      .ok (demoFacA, ⟨"src-aaaaaaaa.factory.near", "aaaaaaaa1", 0⟩) ∧
    demoFacA.on_escrow_created "src-aaaaaaaa.factory.near" "aaaaaaaa1" 0 .Successful =
      (demoFacA, true, none) ∧
    demoFacA.create_escrow "bob.near" 2 "factory.near" FactoryU.MIN_STORAGE_DEPOSIT
      (demoFImm "aaaaaaaa2") .Source =
      .ok (demoFacB, ⟨"src-aaaaaaaa.factory.near", "aaaaaaaa2", 0⟩) ∧
    (demoFacB.on_escrow_created "src-aaaaaaaa.factory.near" "aaaaaaaa2"
        0 .Failed).1.get_escrow_info "src-aaaaaaaa.factory.near" = none ∧
    demoFacA.get_escrow_info "src-aaaaaaaa.factory.near" =
      some ⟨.Source, demoFImm "aaaaaaaa1", "alice.near", 1⟩ := by
  refine ⟨by decide, by decide, by decide, by decide, by decide⟩

/-- Derived escrow account ids are distinct whenever the sliced 8-byte prefixes of the
order hashes are distinct (for any combination of roles) on the same factory account. -/
theorem generate_id_inj (acct : AccountId) (o1 o2 : String) (t1 t2 : EscrowType)
    (p1 p2 : List Char) (h1 : takeBytes o1.data 8 = some p1)
    (h2 : takeBytes o2.data 8 = some p2) (hne : p1 ≠ p2) :
    generate_escrow_account_id acct o1 t1 ≠ generate_escrow_account_id acct o2 t2 := by
  intro heq
  rw [generate_escrow_account_id, generate_escrow_account_id, h1, h2] at heq
  simp only [Option.map_some', Option.some.injEq] at heq
  have hdata := congrArg String.data heq
  cases t1 <;> cases t2 <;>
    simp only [typePrefix, String.data_append,
      show ("src-" : String).data = ['s', 'r', 'c', '-'] from rfl,
      show ("dst-" : String).data = ['d', 's', 't', '-'] from rfl,
      show ("." : String).data = ['.'] from rfl, List.cons_append, List.nil_append,
      List.cons.injEq, List.append_assoc, true_and] at hdata
  · exact hne (List.append_cancel_right hdata)
  · exact absurd hdata.1 (by decide)
  · exact absurd hdata.1 (by decide)
  · exact hne (List.append_cancel_right hdata)

/-- Counterexample for C7: two successful synchronous create_escrow calls for the
DISTINCT orders "aaaaaaaa1" and "aaaaaaaa2" (sharing their first 8 bytes and role)
register the SAME escrow instance id "src-aaaaaaaa.factory.near", so the order-to-escrow
mapping is not injective; the second call also silently overwrites the id's info entry. -/
theorem order_escrow_map_not_injective :
    demoFac0.create_escrow "alice.near" 1 "factory.near" FactoryU.MIN_STORAGE_DEPOSIT
      (demoFImm "aaaaaaaa1") .Source =
      .ok (demoFacA, ⟨"src-aaaaaaaa.factory.near", "aaaaaaaa1", 0⟩) ∧
    demoFacA.create_escrow "bob.near" 2 "factory.near" FactoryU.MIN_STORAGE_DEPOSIT
      (demoFImm "aaaaaaaa2") .Source =
      .ok (demoFacB, ⟨"src-aaaaaaaa.factory.near", "aaaaaaaa2", 0⟩) ∧
    ¬ ("aaaaaaaa1" : String) = "aaaaaaaa2" ∧
    demoFacB.get_escrow_for_order "aaaaaaaa1" = some "src-aaaaaaaa.factory.near" ∧
    demoFacB.get_escrow_for_order "aaaaaaaa2" = some "src-aaaaaaaa.factory.near" ∧
    demoFacB.get_escrow_info "src-aaaaaaaa.factory.near" =
      some ⟨.Source, demoFImm "aaaaaaaa2", "bob.near", 2⟩ := by
  refine ⟨by decide, by decide, by decide, by decide, by decide, by decide⟩

/-- C7 (amended): two successful synchronous create_escrow calls on the factory crate
whose order hashes have DISTINCT first-8-byte slices register distinct orders under
distinct escrow instance ids (whatever the two roles are), and each order reads back
its own id from the registry; the counterexample shows the proviso is needed, since
orders sharing the slice and role collide on one id. -/
theorem distinct_prefixes_distinct_escrows (f : FactoryU.EscrowFactory)
    (c1 c2 : AccountId) (t1 t2 : Nat) (acct : AccountId) (att1 att2 : Nat)
    (imm1 imm2 : EscrowImmutables) (r1 r2 : EscrowType)
    (f1 f2 : FactoryU.EscrowFactory) (p1 p2 : PendingCreation) (pre1 pre2 : List Char)
    (h1 : f.create_escrow c1 t1 acct att1 imm1 r1 = .ok (f1, p1))
    (h2 : f1.create_escrow c2 t2 acct att2 imm2 r2 = .ok (f2, p2))
    (hp1 : takeBytes imm1.order_hash.data 8 = some pre1)
    (hp2 : takeBytes imm2.order_hash.data 8 = some pre2)
    (hne : pre1 ≠ pre2) :
    p1.escrow_account_id ≠ p2.escrow_account_id ∧
    imm1.order_hash ≠ imm2.order_hash ∧
    f2.get_escrow_for_order imm1.order_hash = some p1.escrow_account_id ∧
    f2.get_escrow_for_order imm2.order_hash = some p2.escrow_account_id := by
  obtain ⟨-, -, -, hg1, -, -, hf1⟩ := FactoryU.create_escrow_ok _ _ _ _ _ _ _ _ _ h1
  obtain ⟨-, -, -, hg2, -, -, hf2⟩ := FactoryU.create_escrow_ok _ _ _ _ _ _ _ _ _ h2
  have hordne : imm1.order_hash ≠ imm2.order_hash := by
    intro ho
    rw [ho, hp2] at hp1
    exact hne (Option.some.inj hp1).symm
  have hidne : p1.escrow_account_id ≠ p2.escrow_account_id := by
    intro hid
    exact generate_id_inj acct imm1.order_hash imm2.order_hash r1 r2 pre1 pre2 hp1 hp2 hne
      (by rw [hg1, hg2, hid])
  refine ⟨hidne, hordne, ?_, ?_⟩
  · rw [hf2, hf1]
    simp [FactoryU.EscrowFactory.get_escrow_for_order, mapGet_mapInsert, hordne]
  · rw [hf2]
    simp [FactoryU.EscrowFactory.get_escrow_for_order, mapGet_mapInsert]

/-- Factory-crate state after creating order "aaaaaaaa1" and then order "bbbbbbbb2",
whose 8-byte prefixes differ, so two distinct escrow ids are registered. -/
def demoFacC : FactoryU.EscrowFactory :=
  ⟨"owner.near",
   [("bbbbbbbb2", "src-bbbbbbbb.factory.near"), ("aaaaaaaa1", "src-aaaaaaaa.factory.near")],
   [("src-bbbbbbbb.factory.near", ⟨.Source, demoFImm "bbbbbbbb2", "bob.near", 2⟩),
    ("src-aaaaaaaa.factory.near", ⟨.Source, demoFImm "aaaaaaaa1", "alice.near", 1⟩)],
   0, none, some "template.near"⟩

/-- Witness for C7 (amended) at a concrete input: the concrete orders "aaaaaaaa1" and
"bbbbbbbb2" with distinct 8-byte prefixes receive distinct escrow ids, each readable
from the registry. -/
theorem distinct_prefixes_distinct_escrows_witness :
    ("src-aaaaaaaa.factory.near" : String) ≠ "src-bbbbbbbb.factory.near" ∧
    ("aaaaaaaa1" : String) ≠ "bbbbbbbb2" ∧
    demoFacC.get_escrow_for_order "aaaaaaaa1" = some "src-aaaaaaaa.factory.near" ∧
    demoFacC.get_escrow_for_order "bbbbbbbb2" = some "src-bbbbbbbb.factory.near" :=
  distinct_prefixes_distinct_escrows demoFac0 "alice.near" "bob.near" 1 2 "factory.near"
    FactoryU.MIN_STORAGE_DEPOSIT FactoryU.MIN_STORAGE_DEPOSIT
    (demoFImm "aaaaaaaa1") (demoFImm "bbbbbbbb2") .Source .Source
    demoFacA demoFacC
    ⟨"src-aaaaaaaa.factory.near", "aaaaaaaa1", 0⟩
    ⟨"src-bbbbbbbb.factory.near", "bbbbbbbb2", 0⟩
    ['a', 'a', 'a', 'a', 'a', 'a', 'a', 'a'] ['b', 'b', 'b', 'b', 'b', 'b', 'b', 'b']
    (by decide) (by decide) (by decide) (by decide) (by decide)

/-- Every character occupies at least one UTF-8 byte. -/
theorem charBytes_length_pos (c : Char) : 1 ≤ (charBytes c).length := by
  rw [charBytes]
  split_ifs <;> simp

/-- Decomposition of a successful byte-bounded slice: the taken characters form a
prefix of the string covering exactly `n` UTF-8 bytes. -/
theorem takeBytes_some_decomp (cs : List Char) :
    ∀ (n : Nat) (l : List Char), takeBytes cs n = some l →
      ∃ rest, cs = l ++ rest ∧ (l.flatMap charBytes).length = n := by
  induction cs with
  | nil =>
      intro n l h
      cases n with
      | zero =>
          rw [takeBytes] at h
          obtain rfl := Option.some.inj h
          exact ⟨[], rfl, by simp⟩
      | succ n => rw [takeBytes] at h; cases h
  | cons c cs ih =>
      intro n l h
      cases n with
      | zero =>
          rw [takeBytes] at h
          obtain rfl := Option.some.inj h
          exact ⟨c :: cs, rfl, by simp⟩
      | succ n =>
          rw [takeBytes] at h
          by_cases hk : (charBytes c).length ≤ n + 1
          · rw [if_pos hk, Option.map_eq_some'] at h
            obtain ⟨l', hl', rfl⟩ := h
            obtain ⟨rest, hcs, hlen⟩ := ih _ _ hl'
            refine ⟨rest, by rw [List.cons_append, hcs], ?_⟩
            simp only [List.flatMap_cons, List.length_append]
            omega
          · rw [if_neg hk] at h; cases h

/-- The byte-bounded slice succeeds exactly when some character prefix of the string
covers exactly `n` UTF-8 bytes, that is, when byte position `n` is a character
boundary of the UTF-8 encoding that lies within the string. -/
theorem takeBytes_isSome_iff (cs : List Char) :
    ∀ n : Nat, (takeBytes cs n).isSome = true ↔
      ∃ k, ((cs.take k).flatMap charBytes).length = n := by
  induction cs with
  | nil =>
      intro n
      cases n with
      | zero => simp [takeBytes]
      | succ n =>
          rw [takeBytes]
          simp
  | cons c cs ih =>
      intro n
      cases n with
      | zero =>
          rw [takeBytes]
          simp only [Option.isSome_some, true_iff]
          exact ⟨0, by simp⟩
      | succ n =>
          rw [takeBytes]
          by_cases hk : (charBytes c).length ≤ n + 1
          · rw [if_pos hk, Option.isSome_map', ih]
            constructor
            · rintro ⟨j, hj⟩
              refine ⟨j + 1, ?_⟩
              simp only [List.take_succ_cons, List.flatMap_cons, List.length_append]
              omega
            · rintro ⟨m, hm⟩
              cases m with
              | zero => simp at hm
              | succ j =>
                  refine ⟨j, ?_⟩
                  simp only [List.take_succ_cons, List.flatMap_cons,
                    List.length_append] at hm
                  omega
          · rw [if_neg hk]
            simp only [Option.isSome_none, Bool.false_eq_true, false_iff, not_exists]
            intro m hm
            cases m with
            | zero => simp at hm
            | succ j =>
                simp only [List.take_succ_cons, List.flatMap_cons,
                  List.length_append] at hm
                have := charBytes_length_pos c
                omega

/-- A successful 8-byte slice of the order hash implies at least 8 bytes of UTF-8. -/
theorem takeBytes8_le_strBytes (o : String) (l : List Char)
    (h : takeBytes o.data 8 = some l) : 8 ≤ (strBytes o).length := by
  obtain ⟨rest, hcs, hlen⟩ := takeBytes_some_decomp o.data 8 l h
  rw [strBytes, hcs, List.flatMap_append, List.length_append, hlen]
  omega

/-- An order hash of fewer than 8 UTF-8 bytes makes the slice fail. -/
theorem strBytes_short_none (o : String) (h : (strBytes o).length < 8) :
    takeBytes o.data 8 = none := by
  cases htb : takeBytes o.data 8 with
  | none => rfl
  | some l => exact absurd (takeBytes8_le_strBytes o l htb) (by omega)

/-- C10: in both factory variants, a create_src_escrow or create_dst_escrow call whose
order hash fails the 8-byte slice — exactly when the hash holds fewer than 8 UTF-8
bytes or byte position 8 is not a character boundary, i.e. no character prefix covers
exactly 8 bytes — panics while deriving the child account id (after the deposit and
duplicate checks, before any registry write or provisioning), and a creation that
returns successfully always has an order hash of at least 8 bytes. -/
theorem order_hash_slice_guard (f : FactoryU.EscrowFactory) (g : FactoryS.EscrowFactory)
    (c : AccountId) (t : Nat) (acct : AccountId) (att : Nat) (imm : EscrowImmutables)
    (fu : FactoryU.EscrowFactory) (pu : PendingCreation)
    (gs : FactoryS.EscrowFactory) (qs : PendingCreation) :
    ((strBytes imm.order_hash).length < 8 → takeBytes imm.order_hash.data 8 = none) ∧
    ((takeBytes imm.order_hash.data 8).isSome = true ↔
      ∃ k, ((imm.order_hash.data.take k).flatMap charBytes).length = 8) ∧
    (takeBytes imm.order_hash.data 8 = none →
      f.escrow_template.isSome = true →
      f.calculate_required_deposit imm ≤ att →
      mapGet f.order_to_escrow imm.order_hash = none →
      f.create_src_escrow c t acct att imm = .error .SlicePanic ∧
      f.create_dst_escrow c t acct att imm = .error .SlicePanic) ∧
    (takeBytes imm.order_hash.data 8 = none →
      g.calculate_required_deposit imm ≤ att →
      mapGet g.order_to_escrow imm.order_hash = none →
      g.create_src_escrow c t acct att imm = .error .SlicePanic ∧
      g.create_dst_escrow c t acct att imm = .error .SlicePanic) ∧
    (f.create_src_escrow c t acct att imm = .ok (fu, pu) →
      8 ≤ (strBytes imm.order_hash).length) ∧
    (f.create_dst_escrow c t acct att imm = .ok (fu, pu) →
      8 ≤ (strBytes imm.order_hash).length) ∧
    (g.create_src_escrow c t acct att imm = .ok (gs, qs) →
      8 ≤ (strBytes imm.order_hash).length) ∧
    (g.create_dst_escrow c t acct att imm = .ok (gs, qs) →
      8 ≤ (strBytes imm.order_hash).length) := by
  refine ⟨strBytes_short_none imm.order_hash, takeBytes_isSome_iff imm.order_hash.data 8,
    ?_, ?_, ?_, ?_, ?_, ?_⟩
  · intro hsl htpl hdep hdup
    obtain ⟨tpl, htpl'⟩ := Option.isSome_iff_exists.mp htpl
    constructor <;>
      simp [FactoryU.EscrowFactory.create_src_escrow, FactoryU.EscrowFactory.create_dst_escrow,
        FactoryU.EscrowFactory.create_escrow, htpl', hdep, hdup,
        generate_escrow_account_id, hsl]
  · intro hsl hdep hdup
    constructor <;>
      simp [FactoryS.EscrowFactory.create_src_escrow, FactoryS.EscrowFactory.create_dst_escrow,
        FactoryS.EscrowFactory.create_escrow, hdep, hdup,
        generate_escrow_account_id, hsl]
  · intro h
    obtain ⟨-, -, -, hgen, -, -, -⟩ := FactoryU.create_escrow_ok _ _ _ _ _ _ _ _ _ h
    rw [generate_escrow_account_id, Option.map_eq_some'] at hgen
    obtain ⟨pre, hpre, -⟩ := hgen
    exact takeBytes8_le_strBytes _ _ hpre
  · intro h
    obtain ⟨-, -, -, hgen, -, -, -⟩ := FactoryU.create_escrow_ok _ _ _ _ _ _ _ _ _ h
    rw [generate_escrow_account_id, Option.map_eq_some'] at hgen
    obtain ⟨pre, hpre, -⟩ := hgen
    exact takeBytes8_le_strBytes _ _ hpre
  · intro h
    obtain ⟨-, -, hgen, -, -, -, -⟩ := FactoryS.create_escrow_ok_split _ _ _ _ _ _ _ _ _ h
    rw [generate_escrow_account_id, Option.map_eq_some'] at hgen
    obtain ⟨pre, hpre, -⟩ := hgen
    exact takeBytes8_le_strBytes _ _ hpre
  · intro h
    obtain ⟨-, -, hgen, -, -, -, -⟩ := FactoryS.create_escrow_ok_split _ _ _ _ _ _ _ _ _ h
    rw [generate_escrow_account_id, Option.map_eq_some'] at hgen
    obtain ⟨pre, hpre, -⟩ := hgen
    exact takeBytes8_le_strBytes _ _ hpre

/-- Witness for C10 at a concrete input: the 3-byte order hash "abc" makes both
factories' source-escrow creation panic at the slice. -/
theorem order_hash_slice_guard_witness :
    demoFac0.create_src_escrow "alice.near" 1 "factory.near" FactoryU.MIN_STORAGE_DEPOSIT
      (demoFImm "abc") = .error .SlicePanic ∧
    demoSFac0.create_src_escrow "alice.near" 1 "factory.near" FactoryS.MIN_STORAGE_DEPOSIT
      (demoFImm "abc") = .error .SlicePanic :=
  ⟨((order_hash_slice_guard demoFac0 demoSFac0 "alice.near" 1 "factory.near"
      FactoryU.MIN_STORAGE_DEPOSIT (demoFImm "abc") demoFac0
      ⟨"x", "x", 0⟩ demoSFac0 ⟨"x", "x", 0⟩).2.2.1
      (by decide) (by decide) (by decide) (by decide)).1,
   ((order_hash_slice_guard demoFac0 demoSFac0 "alice.near" 1 "factory.near"
      FactoryS.MIN_STORAGE_DEPOSIT (demoFImm "abc") demoFac0
      ⟨"x", "x", 0⟩ demoSFac0 ⟨"x", "x", 0⟩).2.2.2.1
      (by decide) (by decide) (by decide)).1⟩
